import Mathlib

/-!
Verification of the tf2logs log parser (`timeseries.py`, `parser.py`)
against its natural-language specification.

Shallow embedding conventions:
* `datetime.datetime` keys are modelled as `Nat` epoch seconds; `floor_time`
  becomes integer arithmetic `ts / interval * interval`, exactly the source's
  `int(ts.timestamp()) // self.interval * self.interval`.
* Python dictionaries are modelled as functions into `Option`.
* Python exceptions are modelled with `Except PyError`; a function that can
  raise returns `Except`.  An error result carries no successor state, which
  models "the exception escapes before the object is mutated" only when the
  raise really does precede every mutation in the source (as in
  `SparseTimeSeries.__setitem__`, where the `isinstance` checks come first).
* `isinstance(value, self.datatype)` is modelled by a `dtypeOk : V → Bool`
  field on the series; the series the parser builds (`datatype=int`) carry
  `fun _ => true`, because in the typed embedding an `Int` value is always
  an `int`.
-/

namespace TF2Logs

/-- The Python exception kinds raised by the modelled code. -/
inductive PyError where
  | keyError
  | typeError
  | valueError
  | stopIteration
  deriving DecidableEq, Repr

/-! ## `timeseries.SparseTimeSeries` -/

/-- State of a `timeseries.SparseTimeSeries` object.  `store` is the `_values`
dict, `first`/`last` are `first_timestamp`/`last_timestamp` (`Option` for
`None`), `agg` is `aggregator`, `keepLast` is `keep_last_value`, `zero` is the
value of `datatype()` and `dtypeOk` the `isinstance(·, datatype)` test. -/
structure Series (V : Type) where
  first : Option Nat
  last : Option Nat
  interval : Nat
  dtypeOk : V → Bool
  zero : V
  keepLast : Bool
  agg : V → V → V
  store : Nat → Option V

/-- `floor_time`: `int(ts.timestamp()) // self.interval * self.interval`. -/
def Series.floorTime (s : Series V) (ts : Nat) : Nat :=
  ts / s.interval * s.interval

/-- `__len__`: 0 when a bound is unset, else `(last - first) // interval + 1`. -/
def Series.len (s : Series V) : Nat :=
  match s.first, s.last with
  | some f, some l => (l - f) / s.interval + 1
  | _, _ => 0

/-- The `while current <= last: yield current; current += interval` loop of
`__iter__`, with fuel bounding the number of yields. -/
def iterFrom (interval l : Nat) : Nat → Nat → List Nat
  | 0, _ => []
  | fuel + 1, current =>
      if current ≤ l then current :: iterFrom interval l fuel (current + interval)
      else []

/-- `__iter__`: empty when `len(self) == 0`, else every bucket from `first`
to `last` in steps of `interval`.  `len` is exactly the number of yields of
the source's loop when `interval > 0`. -/
def Series.iterList (s : Series V) : List Nat :=
  if s.len = 0 then []
  else
    match s.first, s.last with
    | some f, some l => iterFrom s.interval l s.len f
    | _, _ => []

/-- The `keep_last_value` scan inside `__getitem__`: walk the iteration keys,
remember the last stored value, and return it on reaching `base_key` (which is
known not to be stored).  `none` means the loop fell through. -/
def carryScan (store : Nat → Option V) (base : Nat) :
    List Nat → Option V → Option V
  | [], _ => none
  | ts :: rest, lastValue =>
    match store ts with
    | some v => carryScan store base rest (some v)
    | none =>
        if ts = base then
          match lastValue with
          | some lv => some lv
          | none => carryScan store base rest lastValue
        else carryScan store base rest lastValue

/-- `__getitem__`.  The chained comparison
`self.first_timestamp <= base_key <= self.last_timestamp` evaluates left to
right and raises `TypeError` when the operand it is about to compare is
`None`; when the first comparison is `False` it short-circuits, so a `None`
`last_timestamp` is only ever compared after `first <= base` holds. -/
def Series.getitem (s : Series V) (key : Nat) : Except PyError V :=
  let base := s.floorTime key
  match s.store base with
  | some v => .ok v
  | none =>
    match s.first with
    | none => .error .typeError
    | some f =>
      if f ≤ base then
        match s.last with
        | none => .error .typeError
        | some l =>
          if base ≤ l then
            .ok (if s.keepLast then
                   match carryScan s.store base s.iterList none with
                   | some v => v
                   | none => s.zero
                 else s.zero)
          else .error .keyError
      else .error .keyError

/-- `__setitem__`: the `isinstance(value, self.datatype)` check raises
`ValueError` before any bound or bucket is touched; then bounds expand to
cover the floored key and the aggregator resolves duplicates. -/
def Series.setitem (s : Series V) (key : Nat) (value : V) :
    Except PyError (Series V) :=
  if s.dtypeOk value then
    let base := s.floorTime key
    let f0 := s.first.getD base
    let l0 := s.last.getD base
    let f1 := if base < f0 then base else f0
    let l1 := if base > l0 then base else l0
    .ok { s with
          first := some f1
          last := some l1
          store := fun k =>
            if k = base then
              some (match s.store base with
                    | some old => s.agg old value
                    | none => value)
            else s.store k }
  else .error .valueError

/-- Reachable-state invariant for a series, maintained by every operation in
the repository: a positive bucket width, and either untouched bounds with an
empty store, or both bounds set, ordered, aligned to the bucket grid, with
every stored key aligned and inside the bounds. -/
def Series.WF (s : Series V) : Prop :=
  0 < s.interval ∧
  ((s.first = none ∧ s.last = none ∧ ∀ k, s.store k = none) ∨
   (∃ f l, s.first = some f ∧ s.last = some l ∧ f ≤ l ∧
     s.interval ∣ f ∧ s.interval ∣ l ∧
     ∀ k v, s.store k = some v → s.interval ∣ k ∧ f ≤ k ∧ k ≤ l))

/-! ## Basic facts about the iteration loop and the carry-forward scan -/

theorem mem_iterFrom_lower {i l : Nat} :
    ∀ {fuel c t : Nat}, t ∈ iterFrom i l fuel c → c ≤ t := by
  intro fuel
  induction fuel with
  | zero => intro c t h; simp [iterFrom] at h
  | succ n ih =>
      intro c t h
      rw [iterFrom] at h
      by_cases hc : c ≤ l
      · rw [if_pos hc] at h
        rcases List.mem_cons.mp h with h | h
        · omega
        · have := ih h; omega
      · rw [if_neg hc] at h; simp at h

theorem carryScan_cons {V : Type} (store : Nat → Option V) (base t : Nat)
    (rest : List Nat) (acc : Option V) :
    carryScan store base (t :: rest) acc =
      (match store t with
       | some v => carryScan store base rest (some v)
       | none =>
           if t = base then
             match acc with
             | some lv => some lv
             | none => carryScan store base rest acc
           else carryScan store base rest acc) := rfl

theorem carryScan_cons_stored {V : Type} {store : Nat → Option V} {t : Nat}
    {v : V} (base : Nat) (rest : List Nat) (acc : Option V)
    (h : store t = some v) :
    carryScan store base (t :: rest) acc = carryScan store base rest (some v) := by
  simp only [carryScan_cons, h]

theorem carryScan_cons_none_ne {V : Type} {store : Nat → Option V} {t : Nat}
    (base : Nat) (rest : List Nat) (acc : Option V)
    (h : store t = none) (hne : t ≠ base) :
    carryScan store base (t :: rest) acc = carryScan store base rest acc := by
  simp only [carryScan_cons, h, if_neg hne]

theorem carryScan_cons_base_some {V : Type} {store : Nat → Option V}
    {base : Nat} (rest : List Nat) (a : V) (h : store base = none) :
    carryScan store base (base :: rest) (some a) = some a := by
  simp [carryScan_cons, h]

theorem carryScan_cons_base_none {V : Type} {store : Nat → Option V}
    {base : Nat} (rest : List Nat) (h : store base = none) :
    carryScan store base (base :: rest) none = carryScan store base rest none := by
  simp [carryScan_cons, h]

theorem carryScan_not_mem {V : Type} (store : Nat → Option V) (base : Nat) :
    ∀ (L : List Nat) (acc : Option V), base ∉ L →
      carryScan store base L acc = none := by
  intro L
  induction L with
  | nil => intro acc _; rfl
  | cons t rest ih =>
      intro acc h
      have ht : t ≠ base := fun he => h (he ▸ List.mem_cons_self t rest)
      have hrest : base ∉ rest := fun hm => h (List.mem_cons_of_mem t hm)
      cases hst : store t with
      | some v => rw [carryScan_cons_stored base rest acc hst]; exact ih (some v) hrest
      | none => rw [carryScan_cons_none_ne base rest acc hst ht]; exact ih acc hrest

theorem carryScan_all_none {V : Type} (store : Nat → Option V) (i base l : Nat)
    (hi : 0 < i) (hbase : store base = none) :
    ∀ (fuel c : Nat) (acc : Option V),
      i ∣ base - c → c ≤ base → base ≤ l → (l - c) / i + 1 ≤ fuel →
      (∀ p, c ≤ p → p < base → i ∣ p - c → store p = none) →
      carryScan store base (iterFrom i l fuel c) acc = acc := by
  intro fuel
  induction fuel with
  | zero => intro c acc _ _ _ hf _; exact absurd hf (Nat.not_succ_le_zero _)
  | succ n ih =>
      intro c acc hdvd hcb hbl hf hnone
      have hcl : c ≤ l := le_trans hcb hbl
      rw [iterFrom, if_pos hcl]
      rcases Nat.lt_or_ge c base with hlt | hge
      · -- c < base: alignment forces c + i ≤ base
        have hstep : i ≤ base - c := Nat.le_of_dvd (by omega) hdvd
        have hci : c + i ≤ base := by omega
        have hstc : store c = none := hnone c le_rfl hlt (by simp)
        rw [carryScan_cons_none_ne _ _ _ hstc (by omega : ¬ c = base)]
        have hfuel' : (l - (c + i)) / i + 1 ≤ n := by
          have hil : i ≤ l - c := by omega
          have h2 := Nat.div_eq_sub_div hi hil
          have heq : l - (c + i) = l - c - i := by omega
          rw [heq]
          omega
        refine ih (c + i) acc ?_ hci hbl hfuel' ?_
        · have heq : base - (c + i) = base - c - i := by omega
          rw [heq]
          exact (Nat.dvd_sub' hdvd (dvd_refl i))
        · intro p hp1 hp2 hp3
          refine hnone p (by omega) hp2 ?_
          have heq : p - c = p - (c + i) + i := by omega
          rw [heq]
          exact Nat.dvd_add hp3 (dvd_refl i)
      · -- c = base
        have hceq : c = base := by omega
        subst hceq
        cases acc with
        | some a => exact carryScan_cons_base_some _ a hbase
        | none =>
            rw [carryScan_cons_base_none _ hbase]
            apply carryScan_not_mem
            intro hmem
            have := mem_iterFrom_lower hmem
            omega

theorem carryScan_found {V : Type} (store : Nat → Option V) (i base l : Nat)
    (p : Nat) (v : V)
    (hi : 0 < i) (hbase : store base = none)
    (hpb : p < base) (hpv : store p = some v)
    (hafter : ∀ q, p < q → q < base → i ∣ q - p → store q = none) :
    ∀ (fuel c : Nat) (acc : Option V),
      i ∣ base - c → i ∣ p - c → c ≤ p → base ≤ l → (l - c) / i + 1 ≤ fuel →
      carryScan store base (iterFrom i l fuel c) acc = some v := by
  intro fuel
  induction fuel with
  | zero => intro c acc _ _ _ _ hf; exact absurd hf (Nat.not_succ_le_zero _)
  | succ n ih =>
      intro c acc hdb hdp hcp hbl hf
      have hcb : c ≤ base := by omega
      have hcl : c ≤ l := by omega
      rw [iterFrom, if_pos hcl]
      rcases Nat.lt_or_ge c p with hlt | hge
      · -- strictly before p: step to c + i ≤ p
        have hstep : i ≤ p - c := Nat.le_of_dvd (by omega) hdp
        have hci : c + i ≤ p := by omega
        have hfuel' : (l - (c + i)) / i + 1 ≤ n := by
          have hil : i ≤ l - c := by omega
          have h2 := Nat.div_eq_sub_div hi hil
          have heq : l - (c + i) = l - c - i := by omega
          rw [heq]
          omega
        have hdb' : i ∣ base - (c + i) := by
          have heq : base - (c + i) = base - c - i := by omega
          rw [heq]; exact Nat.dvd_sub' hdb (dvd_refl i)
        have hdp' : i ∣ p - (c + i) := by
          have heq : p - (c + i) = p - c - i := by omega
          rw [heq]; exact Nat.dvd_sub' hdp (dvd_refl i)
        cases hstc : store c with
        | some w =>
            rw [carryScan_cons_stored _ _ _ hstc]
            exact ih (c + i) (some w) hdb' hdp' hci hbl hfuel'
        | none =>
            rw [carryScan_cons_none_ne _ _ _ hstc (by omega : ¬ c = base)]
            exact ih (c + i) acc hdb' hdp' hci hbl hfuel'
      · -- c = p: pick up v, then scan an all-none stretch up to base
        have hceq : c = p := by omega
        subst hceq
        rw [carryScan_cons_stored _ _ _ hpv]
        have hstep : i ≤ base - c := Nat.le_of_dvd (by omega) hdb
        have hci : c + i ≤ base := by omega
        have hfuel' : (l - (c + i)) / i + 1 ≤ n := by
          have hil : i ≤ l - c := by omega
          have h2 := Nat.div_eq_sub_div hi hil
          have heq : l - (c + i) = l - c - i := by omega
          rw [heq]
          omega
        refine carryScan_all_none store i base l hi hbase n (c + i) (some v)
          ?_ hci hbl hfuel' ?_
        · have heq : base - (c + i) = base - c - i := by omega
          rw [heq]; exact Nat.dvd_sub' hdb (dvd_refl i)
        · intro q hq1 hq2 hq3
          refine hafter q (by omega) hq2 ?_
          have heq : q - c = q - (c + i) + i := by omega
          rw [heq]; exact Nat.dvd_add hq3 (dvd_refl i)

/-- Unfolding form of `Series.getitem`. -/
theorem Series.getitem_def {V : Type} (s : Series V) (key : Nat) :
    s.getitem key =
      (match s.store (s.floorTime key) with
       | some v => .ok v
       | none =>
         match s.first with
         | none => .error .typeError
         | some f =>
           if f ≤ s.floorTime key then
             match s.last with
             | none => .error .typeError
             | some l =>
               if s.floorTime key ≤ l then
                 .ok (if s.keepLast then
                        match carryScan s.store (s.floorTime key) s.iterList none with
                        | some v => v
                        | none => s.zero
                      else s.zero)
               else .error .keyError
           else .error .keyError) := rfl

theorem Series.iterList_eq {V : Type} (s : Series V) (f l : Nat)
    (hf : s.first = some f) (hl : s.last = some l) :
    s.iterList = iterFrom s.interval l ((l - f) / s.interval + 1) f := by
  unfold Series.iterList Series.len
  rw [hf, hl]
  simp

/-- The Python series the repository builds all have `datatype=int`; a fresh
one as the `Counter` constructor makes it: `aggregator=lambda o, n: o+n`,
`keep_last_value=False`, unset bounds, empty `_values`. -/
def freshCounterSeries (interval : Nat) : Series Int :=
  { first := none, last := none, interval := interval,
    dtypeOk := fun _ => true, zero := 0, keepLast := false,
    agg := fun o n => o + n, store := fun _ => none }

/-- **C2** (amended).  Reading a `SparseTimeSeries` at a datetime key:
outside the set bounds the read raises `KeyError` and never returns a
default; an in-bounds unstored bucket returns the datatype's zero value,
except in `keep_last_value` mode where the nearest prior stored value is
returned when one exists; but on a series whose bounds were never set the
read raises `TypeError` (from comparing `None` with a datetime), not the
`KeyError` the claim states. -/
theorem C2_getitem_read_semantics {V : Type} (s : Series V) (hWF : s.WF)
    (key : Nat) :
    (s.first = none → s.getitem key = .error .typeError) ∧
    (∀ f l, s.first = some f → s.last = some l →
      (s.floorTime key < f ∨ l < s.floorTime key) →
      s.getitem key = .error .keyError) ∧
    (∀ f l, s.first = some f → s.last = some l →
      f ≤ s.floorTime key → s.floorTime key ≤ l →
      s.store (s.floorTime key) = none → s.keepLast = false →
      s.getitem key = .ok s.zero) ∧
    (∀ f l, s.first = some f → s.last = some l →
      f ≤ s.floorTime key → s.floorTime key ≤ l → s.keepLast = true →
      (∀ p, p ≤ s.floorTime key → s.store p = none) →
      s.getitem key = .ok s.zero) ∧
    (∀ f l p v, s.first = some f → s.last = some l →
      f ≤ s.floorTime key → s.floorTime key ≤ l → s.keepLast = true →
      s.store (s.floorTime key) = none →
      p < s.floorTime key → s.store p = some v →
      (∀ q, p < q → q < s.floorTime key → s.store q = none) →
      s.getitem key = .ok v) := by
  obtain ⟨hi, hb⟩ := hWF
  have hdvdbase : s.interval ∣ s.floorTime key := dvd_mul_left _ _
  refine ⟨?_, ?_, ?_, ?_, ?_⟩
  · -- unset bounds: TypeError
    intro hf
    rcases hb with ⟨_, _, h3⟩ | ⟨f, l, hf', _⟩
    · rw [Series.getitem_def]; simp only [h3, hf]
    · rw [hf] at hf'; exact absurd hf' (by simp)
  · -- out of bounds: KeyError
    intro f l hf hl hout
    have hstore : s.store (s.floorTime key) = none := by
      cases hsb : s.store (s.floorTime key) with
      | none => rfl
      | some v =>
          rcases hb with ⟨h1, _, _⟩ | ⟨f', l', hf', hl', _, _, _, hkeys⟩
          · rw [hf] at h1; exact absurd h1 (by simp)
          · obtain ⟨_, hge, hle⟩ := hkeys _ v hsb
            rw [hf] at hf'; rw [hl] at hl'
            have h1 : f = f' := Option.some.inj hf'
            have h2 : l = l' := Option.some.inj hl'
            omega
    rcases hout with h | h
    · rw [Series.getitem_def]
      simp only [hstore, hf]
      rw [if_neg (by omega : ¬ f ≤ s.floorTime key)]
    · have hfb : f ≤ s.floorTime key := by
        rcases hb with ⟨h1, _, _⟩ | ⟨f', l', hf', hl', hfl, _, _, _⟩
        · rw [hf] at h1; exact absurd h1 (by simp)
        · rw [hf] at hf'; rw [hl] at hl'
          have h1 : f = f' := Option.some.inj hf'
          have h2 : l = l' := Option.some.inj hl'
          omega
      rw [Series.getitem_def]
      simp only [hstore, hf, hl]
      rw [if_pos hfb, if_neg (by omega : ¬ s.floorTime key ≤ l)]
  · -- in-bounds gap, plain mode: zero
    intro f l hf hl hfb hbl hstore hk
    rw [Series.getitem_def]
    simp only [hstore, hf, hl, hk]
    rw [if_pos hfb, if_pos hbl]
    simp
  · -- carry mode, nothing stored up to the bucket: zero
    intro f l hf hl hfb hbl hk hnone
    obtain ⟨f', l', hf', hl', hfl, hdf, hdl, hkeys⟩ :
        ∃ f' l', s.first = some f' ∧ s.last = some l' ∧ f' ≤ l' ∧
          s.interval ∣ f' ∧ s.interval ∣ l' ∧
          ∀ k v, s.store k = some v → s.interval ∣ k ∧ f' ≤ k ∧ k ≤ l' := by
      rcases hb with ⟨h1, _, _⟩ | h
      · rw [hf] at h1; exact absurd h1 (by simp)
      · exact h
    rw [hf] at hf'; rw [hl] at hl'
    have hfe : f' = f := (Option.some.inj hf').symm
    have hle : l' = l := (Option.some.inj hl').symm
    subst hfe; subst hle
    have hcz := carryScan_all_none s.store s.interval (s.floorTime key) l' hi
      (hnone _ le_rfl) ((l' - f') / s.interval + 1) f' none
      (Nat.dvd_sub' hdvdbase hdf) hfb hbl le_rfl
      (fun p _ hp2 _ => hnone p (by omega))
    rw [Series.getitem_def]
    simp only [hnone _ le_rfl, hf, hl, hk]
    rw [if_pos hfb, if_pos hbl, Series.iterList_eq s f' l' hf hl, hcz]
    simp
  · -- carry mode, nearest prior stored value
    intro f l p v hf hl hfb hbl hk hstore hpv' hpv hafter
    obtain ⟨f', l', hf', hl', hfl, hdf, hdl, hkeys⟩ :
        ∃ f' l', s.first = some f' ∧ s.last = some l' ∧ f' ≤ l' ∧
          s.interval ∣ f' ∧ s.interval ∣ l' ∧
          ∀ k v, s.store k = some v → s.interval ∣ k ∧ f' ≤ k ∧ k ≤ l' := by
      rcases hb with ⟨h1, _, _⟩ | h
      · rw [hf] at h1; exact absurd h1 (by simp)
      · exact h
    rw [hf] at hf'; rw [hl] at hl'
    have hfe : f' = f := (Option.some.inj hf').symm
    have hle : l' = l := (Option.some.inj hl').symm
    subst hfe; subst hle
    obtain ⟨hdp, hfp, hpl⟩ := hkeys _ _ hpv
    have hcf := carryScan_found s.store s.interval (s.floorTime key) l' p v hi
      hstore hpv' hpv (fun q hq1 hq2 _ => hafter q hq1 hq2)
      ((l' - f') / s.interval + 1) f' none
      (Nat.dvd_sub' hdvdbase hdf) (Nat.dvd_sub' hdp hdf) hfp hbl le_rfl
    rw [Series.getitem_def]
    simp only [hstore, hf, hl, hk]
    rw [if_pos hfb, if_pos hbl, Series.iterList_eq s f' l' hf hl, hcf]
    simp

/-- Witness for C2: a carry-forward series with bounds `[0, 50]`, interval 10,
a single stored value `7` at bucket 10; reading at 35 (bucket 30) yields the
nearest prior stored value `7`. -/
def carrySeriesW : Series Int :=
  { first := some 0, last := some 50, interval := 10,
    dtypeOk := fun _ => true, zero := 0, keepLast := true,
    agg := fun _ n => n,
    store := fun k => if k = 10 then some 7 else none }

theorem C2_witness : carrySeriesW.getitem 35 = Except.ok 7 := by
  have hWF : carrySeriesW.WF := by
    refine ⟨by norm_num [carrySeriesW], Or.inr ⟨0, 50, rfl, rfl, by norm_num,
      ⟨0, rfl⟩, ⟨5, rfl⟩, ?_⟩⟩
    intro k v h
    by_cases hk : k = 10
    · subst hk; exact ⟨⟨1, rfl⟩, by norm_num, by norm_num⟩
    · simp [carrySeriesW, hk] at h
  refine (C2_getitem_read_semantics carrySeriesW hWF 35).2.2.2.2 0 50 10 7
    rfl rfl (by norm_num [Series.floorTime, carrySeriesW])
    (by norm_num [Series.floorTime, carrySeriesW]) rfl
    (by norm_num [Series.floorTime, carrySeriesW])
    (by norm_num [Series.floorTime, carrySeriesW]) rfl ?_
  intro q h1 h2
  have : q ≠ 10 := by
    simp only [Series.floorTime, carrySeriesW] at h2
    omega
  simp [carrySeriesW, this]

/-- Counterexample for C2 as stated: on a series on which nothing has ever
been written (unset bounds), the read raises `TypeError` — the comparison
`None <= base_key` in `__getitem__` — not the `KeyError` ("not found") the
claim asserts. -/
theorem C2_counterexample :
    (freshCounterSeries 1).getitem 100 = Except.error PyError.typeError ∧
    (freshCounterSeries 1).getitem 100 ≠ Except.error PyError.keyError := by
  refine ⟨rfl, ?_⟩
  intro h
  have h' : (Except.error PyError.typeError : Except PyError Int) =
      Except.error PyError.keyError := h
  injection h' with he
  exact PyError.noConfusion he

/-- **C6**: writing a value that is not an instance of the series' declared
datatype raises `ValueError` before any bound or bucket mutation; the
`isinstance` check is the first statement of `__setitem__` that can fail, so
the failed call leaves `first_timestamp`, `last_timestamp` and `_values`
untouched (in the embedding, no successor state is produced at all). -/
theorem C6_setitem_type_mismatch {V : Type} (s : Series V) (key : Nat)
    (value : V) (h : s.dtypeOk value = false) :
    s.setitem key value = Except.error PyError.valueError := by
  simp [Series.setitem, h]

/-- Dynamically-typed Python values, for exercising the `isinstance` check
of a `datatype=int` series with a non-int value. -/
inductive PyVal where
  | intV (n : Int)
  | strV (s : String)
  deriving DecidableEq, Repr

def PyVal.isInt : PyVal → Bool
  | intV _ => true
  | strV _ => false

/-- A `SparseTimeSeries(datatype=int)` over dynamically-typed values. -/
def intSeriesDyn : Series PyVal :=
  { first := none, last := none, interval := 1,
    dtypeOk := PyVal.isInt, zero := .intV 0, keepLast := false,
    agg := fun _ n => n, store := fun _ => none }

theorem C6_witness :
    intSeriesDyn.dtypeOk (PyVal.strV "oops") = false ∧
    intSeriesDyn.setitem 5 (PyVal.strV "oops") =
      Except.error PyError.valueError :=
  ⟨rfl, C6_setitem_type_mismatch intSeriesDyn 5 (PyVal.strV "oops") rfl⟩

/-! ## Write-order independence (claim C7) -/

/-- The success path of `__setitem__` (the state produced when the
`isinstance` check passes). -/
def Series.setitemT (s : Series V) (key : Nat) (value : V) : Series V :=
  let base := s.floorTime key
  let f0 := s.first.getD base
  let l0 := s.last.getD base
  let f1 := if base < f0 then base else f0
  let l1 := if base > l0 then base else l0
  { s with
    first := some f1
    last := some l1
    store := fun k =>
      if k = base then
        some (match s.store base with
              | some old => s.agg old value
              | none => value)
      else s.store k }

theorem setitem_eq_ok {V : Type} (s : Series V) (key : Nat) (value : V)
    (h : s.dtypeOk value = true) :
    s.setitem key value = .ok (s.setitemT key value) := by
  simp [Series.setitem, Series.setitemT, h]

theorem setitemT_first {V : Type} (s : Series V) (key : Nat) (value : V) :
    (s.setitemT key value).first =
      some (if s.floorTime key < s.first.getD (s.floorTime key)
            then s.floorTime key else s.first.getD (s.floorTime key)) := rfl

theorem setitemT_last {V : Type} (s : Series V) (key : Nat) (value : V) :
    (s.setitemT key value).last =
      some (if s.floorTime key > s.last.getD (s.floorTime key)
            then s.floorTime key else s.last.getD (s.floorTime key)) := rfl

theorem setitemT_agg {V : Type} (s : Series V) (key : Nat) (value : V) :
    (s.setitemT key value).agg = s.agg := rfl

theorem setitemT_store {V : Type} (s : Series V) (key : Nat) (value : V)
    (k : Nat) :
    (s.setitemT key value).store k =
      (if k = s.floorTime key then
         some (match s.store (s.floorTime key) with
               | some old => s.agg old value
               | none => value)
       else s.store k) := rfl

/-- Observational equivalence of two series states: equal bounds, equal
bucket map, and equal configuration. -/
def SEq (s₁ s₂ : Series V) : Prop :=
  s₁.first = s₂.first ∧ s₁.last = s₂.last ∧
  (∀ k, s₁.store k = s₂.store k) ∧
  s₁.interval = s₂.interval ∧ s₁.dtypeOk = s₂.dtypeOk ∧ s₁.zero = s₂.zero ∧
  s₁.keepLast = s₂.keepLast ∧ s₁.agg = s₂.agg

theorem SEq_refl {V : Type} (s : Series V) : SEq s s :=
  ⟨Eq.refl _, Eq.refl _, fun _ => Eq.refl _, Eq.refl _, Eq.refl _, Eq.refl _,
   Eq.refl _, Eq.refl _⟩

theorem SEq_trans {V : Type} {s₁ s₂ s₃ : Series V}
    (h₁ : SEq s₁ s₂) (h₂ : SEq s₂ s₃) : SEq s₁ s₃ := by
  obtain ⟨a1, b1, c1, d1, e1, f1, g1, h1⟩ := h₁
  obtain ⟨a2, b2, c2, d2, e2, f2, g2, h2⟩ := h₂
  exact ⟨a1.trans a2, b1.trans b2, fun k => (c1 k).trans (c2 k),
    d1.trans d2, e1.trans e2, f1.trans f2, g1.trans g2, h1.trans h2⟩

theorem setitemT_congr {V : Type} {s₁ s₂ : Series V} (k : Nat) (v : V)
    (h : SEq s₁ s₂) : SEq (s₁.setitemT k v) (s₂.setitemT k v) := by
  obtain ⟨h1, h2, h3, h4, h5, h6, h7, h8⟩ := h
  have hbase : s₁.floorTime k = s₂.floorTime k := by
    simp [Series.floorTime, h4]
  refine ⟨?_, ?_, ?_, h4, h5, h6, h7, h8⟩
  · rw [setitemT_first, setitemT_first, hbase, h1]
  · rw [setitemT_last, setitemT_last, hbase, h2]
  · intro k'
    rw [setitemT_store, setitemT_store, hbase, h3, h3, h8]

theorem setitemT_comm {V : Type} (s : Series V) (k₁ k₂ : Nat) (v₁ v₂ : V)
    (hcomm : ∀ a b, s.agg a b = s.agg b a)
    (hassoc : ∀ a b c, s.agg (s.agg a b) c = s.agg a (s.agg b c)) :
    SEq ((s.setitemT k₁ v₁).setitemT k₂ v₂) ((s.setitemT k₂ v₂).setitemT k₁ v₁) := by
  have hb1 : (s.setitemT k₂ v₂).floorTime k₁ = s.floorTime k₁ := rfl
  have hb2 : (s.setitemT k₁ v₁).floorTime k₂ = s.floorTime k₂ := rfl
  refine ⟨?_, ?_, ?_, rfl, rfl, rfl, rfl, rfl⟩
  · simp only [setitemT_first, hb1, hb2, Option.getD_some]
    rcases s.first with _ | f <;>
      simp only [Option.getD_none, Option.getD_some, Option.some.injEq] <;>
      split_ifs <;> omega
  · simp only [setitemT_last, hb1, hb2, Option.getD_some]
    rcases s.last with _ | l <;>
      simp only [Option.getD_none, Option.getD_some, Option.some.injEq] <;>
      split_ifs <;> omega
  · intro k'
    simp only [setitemT_store, setitemT_agg, hb1, hb2]
    by_cases hbb : s.floorTime k₁ = s.floorTime k₂
    · by_cases hk : k' = s.floorTime k₁
      · simp only [hk, hbb, if_pos rfl]
        cases hs : s.store (s.floorTime k₂) with
        | none => simp [hcomm]
        | some old => simp [hassoc, hcomm v₁ v₂]
      · have hk2 : ¬ k' = s.floorTime k₂ := hbb ▸ hk
        simp [hk, hk2]
    · by_cases hk1 : k' = s.floorTime k₁
      · have hk2 : ¬ k' = s.floorTime k₂ := fun he => hbb (hk1 ▸ he ▸ rfl)
        have hne : ¬ s.floorTime k₁ = s.floorTime k₂ := hbb
        simp [hk1, hk2, hne]
      · by_cases hk2 : k' = s.floorTime k₂
        · have hne : ¬ s.floorTime k₂ = s.floorTime k₁ := fun he => hbb he.symm
          simp [hk1, hk2, hne]
        · simp [hk1, hk2]

/-- Apply a list of `(timestamp, value)` writes left to right through
`__setitem__`. -/
def applyWrites {V : Type} (s : Series V) (ws : List (Nat × V)) :
    Except PyError (Series V) :=
  ws.foldlM (fun st w => st.setitem w.1 w.2) s

/-- The same fold along the success path. -/
def applyWritesT {V : Type} (s : Series V) (ws : List (Nat × V)) : Series V :=
  ws.foldl (fun st w => st.setitemT w.1 w.2) s

theorem applyWrites_ok {V : Type} :
    ∀ (ws : List (Nat × V)) (s : Series V),
      (∀ w ∈ ws, s.dtypeOk w.2 = true) →
      applyWrites s ws = .ok (applyWritesT s ws)
  | [], _, _ => rfl
  | w :: ws, s, h => by
      have hw : s.dtypeOk w.2 = true := h w (List.mem_cons_self _ _)
      have hrest : ∀ w' ∈ ws, (s.setitemT w.1 w.2).dtypeOk w'.2 = true :=
        fun w' hw' => h w' (List.mem_cons_of_mem _ hw')
      have ih := applyWrites_ok ws (s.setitemT w.1 w.2) hrest
      simp only [applyWrites, List.foldlM, setitem_eq_ok s w.1 w.2 hw]
      simpa [applyWrites, applyWritesT] using ih

theorem applyWritesT_congr {V : Type} :
    ∀ (ws : List (Nat × V)) {s₁ s₂ : Series V}, SEq s₁ s₂ →
      SEq (applyWritesT s₁ ws) (applyWritesT s₂ ws)
  | [], _, _, h => h
  | w :: ws, _, _, h =>
      applyWritesT_congr ws (setitemT_congr w.1 w.2 h)

theorem applyWritesT_perm {V : Type} {ws₁ ws₂ : List (Nat × V)}
    (hp : ws₁.Perm ws₂) :
    ∀ (s : Series V), (∀ a b, s.agg a b = s.agg b a) →
      (∀ a b c, s.agg (s.agg a b) c = s.agg a (s.agg b c)) →
      SEq (applyWritesT s ws₁) (applyWritesT s ws₂) := by
  induction hp with
  | nil => intro s _ _; exact SEq_refl s
  | cons x _ ih =>
      intro s hc ha
      exact ih (s.setitemT x.1 x.2) hc ha
  | swap x y l =>
      intro s hc ha
      exact applyWritesT_congr l (setitemT_comm s y.1 x.1 y.2 x.2 hc ha)
  | trans _ _ ih₁ ih₂ =>
      intro s hc ha
      exact SEq_trans (ih₁ s hc ha) (ih₂ s hc ha)

/-- **C7**: for a series whose aggregator is commutative and associative,
any two permutations of a finite sequence of type-correct writes produce the
same final state: same bounds and the same value in every bucket. -/
theorem C7_write_order_independence {V : Type} (s : Series V)
    (hcomm : ∀ a b, s.agg a b = s.agg b a)
    (hassoc : ∀ a b c, s.agg (s.agg a b) c = s.agg a (s.agg b c))
    (ws₁ ws₂ : List (Nat × V)) (hperm : ws₁.Perm ws₂)
    (hty : ∀ w ∈ ws₁, s.dtypeOk w.2 = true) :
    ∃ s₁ s₂, applyWrites s ws₁ = .ok s₁ ∧ applyWrites s ws₂ = .ok s₂ ∧
      s₁.first = s₂.first ∧ s₁.last = s₂.last ∧
      ∀ k, s₁.store k = s₂.store k := by
  have hty₂ : ∀ w ∈ ws₂, s.dtypeOk w.2 = true :=
    fun w hw => hty w (hperm.symm.subset hw)
  refine ⟨applyWritesT s ws₁, applyWritesT s ws₂,
    applyWrites_ok ws₁ s hty, applyWrites_ok ws₂ s hty₂, ?_, ?_, ?_⟩
  · exact (applyWritesT_perm hperm s hcomm hassoc).1
  · exact (applyWritesT_perm hperm s hcomm hassoc).2.1
  · exact (applyWritesT_perm hperm s hcomm hassoc).2.2.1

theorem C7_witness :
    ∃ s₁ s₂,
      applyWrites (freshCounterSeries 10) [(3, 1), (17, 2), (5, 4)] = .ok s₁ ∧
      applyWrites (freshCounterSeries 10) [(17, 2), (3, 1), (5, 4)] = .ok s₂ ∧
      s₁.first = s₂.first ∧ s₁.last = s₂.last ∧
      ∀ k, s₁.store k = s₂.store k :=
  C7_write_order_independence (freshCounterSeries 10)
    (fun a b => Int.add_comm a b) (fun a b c => Int.add_assoc a b c)
    _ _ (List.Perm.swap ((17 : Nat), (2 : Int)) ((3 : Nat), (1 : Int)) [(5, 4)])
    (fun _ _ => rfl)

/-! ## `parser.Counter.Totaller` (claim C5)

A `Counter` holds an insertion-ordered dict of child `SparseTimeSeries`
(`self._values`); the `Totaller` view iterates the first child's `keys()`,
and its `values()` zips every child's `values()` generator and sums the
tuples.  We model the children as the list `parent._values.values()`. -/

/-- `keys()` of a child series: its `__iter__` sequence. -/
def seriesKeys (s : Series Int) : List Nat := s.iterList

/-- `values()` of a child series: `self[ts]` for each iterated `ts` (each
cell can in principle raise, as a generator would). -/
def seriesValuesList (s : Series Int) : List (Except PyError Int) :=
  s.iterList.map (fun ts => s.getitem ts)

/-- One step of `zip(*iterators)`: peel the head of every list, or stop. -/
def allHeads {α : Type} : List (List α) → Option (List α × List (List α))
  | [] => some ([], [])
  | [] :: _ => none
  | (x :: xs) :: rest =>
      match allHeads rest with
      | none => none
      | some (hs, ts) => some (x :: hs, xs :: ts)

def zipT_go {α : Type} : List α → List (List α) → List (List α)
  | [], _ => []
  | x :: xs, rest =>
      match allHeads rest with
      | none => []
      | some (hs, ts) => (x :: hs) :: zipT_go xs ts

/-- `zip(*lists)`: tuples while every list still has an element (truncates to
the shortest input, as Python's `zip` does). -/
def zipTranspose {α : Type} : List (List α) → List (List α)
  | [] => []
  | l₀ :: rest => zipT_go l₀ rest

/-- Sequence a row of generator cells: first raised error wins. -/
def exSeq : List (Except PyError Int) → Except PyError (List Int)
  | [] => .ok []
  | x :: xs =>
    match x with
    | .error e => .error e
    | .ok v =>
      match exSeq xs with
      | .error e => .error e
      | .ok vs => .ok (v :: vs)

/-- `sum(value_list)` over one zipped tuple. -/
def rowSum (row : List (Except PyError Int)) : Except PyError Int :=
  match exSeq row with
  | .ok vs => .ok vs.sum
  | .error e => .error e

def exMapRows : List (List (Except PyError Int)) → Except PyError (List Int)
  | [] => .ok []
  | r :: rs =>
    match rowSum r with
    | .error e => .error e
    | .ok v =>
      match exMapRows rs with
      | .error e => .error e
      | .ok vs => .ok (v :: vs)

/-- `Totaller.__iter__`: the first child's `keys()`; `StopIteration` when the
parent has no children. -/
def totalsIter (children : List (Series Int)) : Except PyError (List Nat) :=
  match children with
  | [] => .error .stopIteration
  | c :: _ => .ok (seriesKeys c)

/-- `Totaller.values()`: sum each tuple of `zip(*children.values())`. -/
def totalsValues (children : List (Series Int)) : Except PyError (List Int) :=
  exMapRows (zipTranspose (children.map seriesValuesList))

/-- `Totaller.items()`: `zip(self.keys(), self.values())`. -/
def totalsItems (children : List (Series Int)) :
    Except PyError (List (Nat × Int)) :=
  match totalsIter children with
  | .error e => .error e
  | .ok ks =>
    match totalsValues children with
    | .error e => .error e
    | .ok vs => .ok (ks.zip vs)

theorem mem_iterFrom_upper {i l : Nat} :
    ∀ {fuel c t : Nat}, t ∈ iterFrom i l fuel c → t ≤ l := by
  intro fuel
  induction fuel with
  | zero => intro c t h; simp [iterFrom] at h
  | succ n ih =>
      intro c t h
      rw [iterFrom] at h
      by_cases hc : c ≤ l
      · rw [if_pos hc] at h
        rcases List.mem_cons.mp h with h | h
        · omega
        · exact ih h
      · rw [if_neg hc] at h; simp at h

theorem mem_iterFrom_dvd {i l : Nat} (_hdl : i ∣ l) :
    ∀ {fuel c t : Nat}, i ∣ c → t ∈ iterFrom i l fuel c → i ∣ t := by
  intro fuel
  induction fuel with
  | zero => intro c t _ h; simp [iterFrom] at h
  | succ n ih =>
      intro c t hc h
      rw [iterFrom] at h
      by_cases hcl : c ≤ l
      · rw [if_pos hcl] at h
        rcases List.mem_cons.mp h with h | h
        · exact h ▸ hc
        · exact ih (Nat.dvd_add hc (dvd_refl i)) h
      · rw [if_neg hcl] at h; simp at h

/-- In-bounds reads never raise (stored, zero-filled or carried — always a
value). -/
theorem getitem_isOk_inbounds {V : Type} (s : Series V) (f l : Nat)
    (hf : s.first = some f) (hl : s.last = some l) (key : Nat)
    (h1 : f ≤ s.floorTime key) (h2 : s.floorTime key ≤ l) :
    ∃ v, s.getitem key = .ok v := by
  rw [Series.getitem_def]
  cases hs : s.store (s.floorTime key) with
  | some v => exact ⟨v, rfl⟩
  | none =>
      simp only [hf, hl]
      rw [if_pos h1, if_pos h2]
      exact ⟨_, rfl⟩

theorem allHeads_map_cons {α σ : Type} (f : σ → α) (g : σ → List α) :
    ∀ cs : List σ,
      allHeads (cs.map (fun c => f c :: g c)) = some (cs.map f, cs.map g)
  | [] => rfl
  | c :: cs => by
      simp only [List.map_cons, allHeads, allHeads_map_cons f g cs]

theorem zipT_go_map {α σ : Type} (g : σ → Nat → α) :
    ∀ (keys : List Nat) (c : σ) (cs : List σ),
      zipT_go (keys.map (g c)) (cs.map (fun ch => keys.map (g ch))) =
        keys.map (fun t => g c t :: cs.map (fun ch => g ch t)) := by
  intro keys
  induction keys with
  | nil => intro c cs; rfl
  | cons t ks ih =>
      intro c cs
      simp only [List.map_cons, zipT_go,
        allHeads_map_cons (fun ch => g ch t) (fun ch => ks.map (g ch)) cs]
      exact congrArg _ (ih c cs)

theorem exSeq_ok :
    ∀ row : List (Except PyError Int), (∀ x ∈ row, ∃ v, x = .ok v) →
      exSeq row = .ok (row.map (fun e => e.toOption.getD 0))
  | [], _ => rfl
  | x :: xs, h => by
      obtain ⟨v, hv⟩ := h x (List.mem_cons_self _ _)
      subst hv
      have := exSeq_ok xs (fun y hy => h y (List.mem_cons_of_mem _ hy))
      simp [exSeq, this, Except.toOption]

theorem rowSum_ok (row : List (Except PyError Int))
    (h : ∀ x ∈ row, ∃ v, x = .ok v) :
    rowSum row = .ok ((row.map (fun e => e.toOption.getD 0)).sum) := by
  rw [rowSum, exSeq_ok row h]

theorem exMapRows_ok (G : List (Except PyError Int) → Int) :
    ∀ rows : List (List (Except PyError Int)),
      (∀ r ∈ rows, rowSum r = .ok (G r)) →
      exMapRows rows = .ok (rows.map G)
  | [], _ => rfl
  | r :: rs, h => by
      have h1 := h r (List.mem_cons_self _ _)
      have h2 := exMapRows_ok G rs (fun y hy => h y (List.mem_cons_of_mem _ hy))
      simp [exMapRows, h1, h2]

theorem zip_self_map {α β : Type} (g : α → β) :
    ∀ L : List α, L.zip (L.map g) = L.map (fun t => (t, g t))
  | [] => rfl
  | x :: xs => by simp [List.zip_cons_cons, zip_self_map g xs]

/-- **C5**: for a `Counter` with at least one child whose children all share
one interval and identical set bounds, the totals view's `items()` yields
exactly the bucket timestamps from `first` to `last` inclusive (step =
interval), each paired with the sum over all children of that child's
gap-filling read at the timestamp (and those reads never raise). -/
theorem C5_totaller_items (i f l : Nat) (c : Series Int) (cs : List (Series Int))
    (hWF : ∀ ch ∈ c :: cs, ch.WF)
    (hi : ∀ ch ∈ c :: cs, ch.interval = i)
    (hf : ∀ ch ∈ c :: cs, ch.first = some f)
    (hl : ∀ ch ∈ c :: cs, ch.last = some l) :
    totalsItems (c :: cs) =
      .ok ((iterFrom i l ((l - f) / i + 1) f).map
        (fun ts => (ts, ((c :: cs).map
          (fun ch => (ch.getitem ts).toOption.getD 0)).sum))) ∧
    (∀ ch ∈ c :: cs, ∀ ts ∈ iterFrom i l ((l - f) / i + 1) f,
      ∃ v, ch.getitem ts = .ok v) := by
  have hipos : 0 < i := by
    have := (hWF c (List.mem_cons_self _ _)).1
    rw [hi c (List.mem_cons_self _ _)] at this
    exact this
  have hdvdf : i ∣ f := by
    rcases (hWF c (List.mem_cons_self _ _)).2 with ⟨h1, _, _⟩ | ⟨f', l', hf', _, _, hd, _, _⟩
    · rw [hf c (List.mem_cons_self _ _)] at h1; exact absurd h1 (by simp)
    · rw [hf c (List.mem_cons_self _ _)] at hf'
      rwa [(Option.some.inj hf' : f = f'), ← hi c (List.mem_cons_self _ _)]
  have hdvdl : i ∣ l := by
    rcases (hWF c (List.mem_cons_self _ _)).2 with ⟨h1, _, _⟩ | ⟨f', l', hf', hl', _, _, hd, _⟩
    · rw [hf c (List.mem_cons_self _ _)] at h1; exact absurd h1 (by simp)
    · rw [hl c (List.mem_cons_self _ _)] at hl'
      rwa [(Option.some.inj hl' : l = l'), ← hi c (List.mem_cons_self _ _)]
  -- every child iterates the same key sequence
  have hiter : ∀ ch ∈ c :: cs, ch.iterList = iterFrom i l ((l - f) / i + 1) f := by
    intro ch hch
    have := Series.iterList_eq ch f l (hf ch hch) (hl ch hch)
    rwa [hi ch hch] at this
  -- in-bounds reads are always `ok`
  have hok : ∀ ch ∈ c :: cs, ∀ ts ∈ iterFrom i l ((l - f) / i + 1) f,
      ∃ v, ch.getitem ts = .ok v := by
    intro ch hch ts hts
    have hfloor : ch.floorTime ts = ts := by
      have hdts : i ∣ ts := mem_iterFrom_dvd hdvdl hdvdf hts
      rw [Series.floorTime, hi ch hch, Nat.div_mul_cancel hdts]
    refine getitem_isOk_inbounds ch f l (hf ch hch) (hl ch hch) ts ?_ ?_
    · rw [hfloor]; exact mem_iterFrom_lower hts
    · rw [hfloor]; exact mem_iterFrom_upper hts
  refine ⟨?_, hok⟩
  -- normalise the children's value lists to maps over the shared keys
  have hvals : (c :: cs).map seriesValuesList =
      (c :: cs).map (fun ch =>
        (iterFrom i l ((l - f) / i + 1) f).map (fun ts => ch.getitem ts)) := by
    apply List.map_congr_left
    intro ch hch
    rw [seriesValuesList, hiter ch hch]
  have hrows : zipTranspose ((c :: cs).map seriesValuesList) =
      (iterFrom i l ((l - f) / i + 1) f).map
        (fun t => (c :: cs).map (fun ch => ch.getitem t)) := by
    rw [hvals, List.map_cons, zipTranspose,
      zipT_go_map (fun (ch : Series Int) ts => ch.getitem ts)]
    simp only [List.map_cons]
  have hvalsok : totalsValues (c :: cs) =
      .ok ((iterFrom i l ((l - f) / i + 1) f).map
        (fun t => ((c :: cs).map
          (fun ch => (ch.getitem t).toOption.getD 0)).sum)) := by
    rw [totalsValues, hrows,
      exMapRows_ok (fun r => (r.map (fun e => e.toOption.getD 0)).sum) _
        (fun r hr => by
          obtain ⟨t, ht, hrt⟩ := List.mem_map.mp hr
          subst hrt
          refine rowSum_ok _ ?_
          intro x hx
          obtain ⟨ch, hch, hchx⟩ := List.mem_map.mp hx
          exact hchx ▸ hok ch hch t ht)]
    simp only [List.map_map]
    refine congrArg Except.ok (List.map_congr_left ?_)
    intro t _
    simp only [Function.comp_apply, List.map_map]
    rfl
  rw [totalsItems, totalsIter, hvalsok, seriesKeys,
    hiter c (List.mem_cons_self _ _)]
  exact congrArg Except.ok (zip_self_map _ _)

/-- Two concrete children with identical bounds `[0, 20]` and interval 10. -/
def totalsSeriesA : Series Int :=
  { first := some 0, last := some 20, interval := 10,
    dtypeOk := fun _ => true, zero := 0, keepLast := false,
    agg := fun o n => o + n,
    store := fun k => if k = 0 then some 3 else none }

def totalsSeriesB : Series Int :=
  { first := some 0, last := some 20, interval := 10,
    dtypeOk := fun _ => true, zero := 0, keepLast := false,
    agg := fun o n => o + n,
    store := fun k => if k = 20 then some 5 else none }

theorem C5_witness :
    totalsItems [totalsSeriesA, totalsSeriesB] =
      .ok ((iterFrom 10 20 ((20 - 0) / 10 + 1) 0).map
        (fun ts => (ts, (([totalsSeriesA, totalsSeriesB]).map
          (fun ch => (ch.getitem ts).toOption.getD 0)).sum))) ∧
    (∀ ch ∈ [totalsSeriesA, totalsSeriesB],
      ∀ ts ∈ iterFrom 10 20 ((20 - 0) / 10 + 1) 0,
        ∃ v, ch.getitem ts = .ok v) := by
  have hmem : ∀ ch ∈ [totalsSeriesA, totalsSeriesB],
      ch = totalsSeriesA ∨ ch = totalsSeriesB := by
    intro ch hch
    rcases List.mem_cons.mp hch with h | h
    · exact Or.inl h
    · rcases List.mem_cons.mp h with h' | h'
      · exact Or.inr h'
      · simp at h'
  have hWFA : totalsSeriesA.WF := by
    refine ⟨by norm_num [totalsSeriesA], Or.inr ⟨0, 20, rfl, rfl, by norm_num,
      ⟨0, rfl⟩, ⟨2, rfl⟩, ?_⟩⟩
    intro k v h
    by_cases hk : k = 0
    · subst hk; exact ⟨⟨0, rfl⟩, le_rfl, by norm_num⟩
    · simp [totalsSeriesA, hk] at h
  have hWFB : totalsSeriesB.WF := by
    refine ⟨by norm_num [totalsSeriesB], Or.inr ⟨0, 20, rfl, rfl, by norm_num,
      ⟨0, rfl⟩, ⟨2, rfl⟩, ?_⟩⟩
    intro k v h
    by_cases hk : k = 20
    · subst hk; exact ⟨⟨2, rfl⟩, by norm_num, le_rfl⟩
    · simp [totalsSeriesB, hk] at h
  refine C5_totaller_items 10 0 20 totalsSeriesA [totalsSeriesB] ?_ ?_ ?_ ?_
  · intro ch hch
    rcases hmem ch hch with h | h <;> subst h
    · exact hWFA
    · exact hWFB
  · intro ch hch
    rcases hmem ch hch with h | h <;> subst h <;> rfl
  · intro ch hch
    rcases hmem ch hch with h | h <;> subst h <;> rfl
  · intro ch hch
    rcases hmem ch hch with h | h <;> subst h <;> rfl

/-! ## `parser.User` and `parser.World` -/

/-- A `Counter` key: per-opponent keys are `User` objects (identified, as the
registry guarantees, by their unique steam id), per-weapon/object keys are
strings. -/
inductive CKey where
  | user (sid : String)
  | str (s : String)
  deriving DecidableEq, Repr

/-- `Counter._values`: a lazily-populated dict from key to child series. -/
def PCounter : Type := CKey → Option (Series Int)

/-- `Counter.__getitem__`: return the stored child or a freshly constructed
one (`self.constructor()`, i.e. a `SparseTimeSeries` with the counter's
interval and the summing aggregator). -/
def counterGet (interval : Nat) (c : PCounter) (k : CKey) : Series Int :=
  (c k).getD (freshCounterSeries interval)

/-- `counter[key][timestamp] = value`: get-or-create the child series and
write through `__setitem__`. -/
def counterAdd (interval : Nat) (c : PCounter) (k : CKey) (ts : Nat) (v : Int) :
    Except PyError PCounter :=
  match (counterGet interval c k).setitem ts v with
  | .error e => .error e
  | .ok s' => .ok (fun k' => if k' = k then some s' else c k')

/-- `parser.Location` (x, y, z, defaulting to 0). -/
structure Location where
  x : Int
  y : Int
  z : Int
  deriving DecidableEq, Repr

/-- The `positions` series built by `reset_counters`:
`SparseTimeSeries(datatype=Location, interval=self.interval,
keep_last_value=True)` with the default replacing aggregator. -/
def freshPositions (interval : Nat) : Series Location :=
  { first := none, last := none, interval := interval,
    dtypeOk := fun _ => true, zero := ⟨0, 0, 0⟩, keepLast := true,
    agg := fun _ n => n, store := fun _ => none }

/-- The 26 counter names `reset_counters` installs. -/
def counterNames : List String :=
  ["seen", "kills", "assists", "constructions", "destructions", "damage",
   "damage_by_weapon", "realdamage", "realdamage_by_weapon",
   "damage_received", "deaths", "heals_given", "heals_received", "suicides",
   "med_picks", "points_captured", "points_blocked", "dominations",
   "revenges", "headshots", "airshots", "headshot_kills", "backstab_kills",
   "extinguishes", "feigns", "feigns_triggered"]

/-- A `parser.User` in its valid state.  `counters` maps each counter name to
its `Counter`; the Python dict holds exactly the names of `counterNames`,
each an empty `Counter(aggregator=lambda o, n: o+n, interval=self.interval)`;
the total function models a fresh empty counter for every name. -/
structure PUser where
  steam_id : String
  name : String
  team : String
  original_team : String
  server_id : String
  player_class : Option String
  played_classes : List String
  interval : Nat
  counters : String → PCounter
  positions : Series Location

/-- `User.reset_counters`: rebuild every counter empty and a fresh
`positions` series; nothing else is touched. -/
def PUser.reset_counters (u : PUser) : PUser :=
  { u with counters := fun _ => fun _ => none,
           positions := freshPositions u.interval }

/-- The groupdict of a successful `user_re` match. -/
structure Mention where
  username : String
  steam_id : String
  team : String
  server_id : String
  deriving DecidableEq, Repr

/-- `User.__init__` on a valid mention: name/team/steam id/server slot from
the match groups, `original_team` starts as the mention's team, no class yet,
and `reset_counters()` builds the empty counters (constructor default
`interval=10` is passed by the caller). -/
def mkUser (m : Mention) (interval : Nat) : PUser :=
  { steam_id := m.steam_id, name := m.username, team := m.team,
    original_team := m.team, server_id := m.server_id,
    player_class := none, played_classes := [], interval := interval,
    counters := fun _ => fun _ => none,
    positions := freshPositions interval }

/-- `User.update(other)`: copy the incoming name; overwrite `original_team`
only when the current one is not a real team; copy the incoming team; and
`self.server_id = self.server_id` — the incoming server slot is never
copied. -/
def PUser.update (self other : PUser) : PUser :=
  { self with
    name := other.name
    original_team :=
      if self.original_team = "Blue" ∨ self.original_team = "Red" then
        self.original_team
      else other.team
    team := other.team
    server_id := self.server_id }

/-- `User.update_class`. -/
def PUser.update_class (self : PUser) (player_class : String) : PUser :=
  { self with
    played_classes := player_class :: self.played_classes
    player_class := some player_class }

/-- `parser.World` state (plus the dynamically-assigned `timestamp`,
`first_timestamp` and `last_timestamp` attributes). -/
structure PWorld where
  known_users : String → Option PUser
  timestamp : Nat
  first_timestamp : Option Nat
  last_timestamp : Option Nat
  filename : String
  mapname : String
  team_names : String → Option String

/-- `user.counters[cname][k][ts] = v` on a user object. -/
def userCounterAdd (u : PUser) (cname : String) (k : CKey) (ts : Nat)
    (v : Int) : Except PyError PUser :=
  match counterAdd u.interval (u.counters cname) k ts v with
  | .error e => .error e
  | .ok c' =>
      .ok { u with counters := fun n => if n = cname then c' else u.counters n }

/-- `World.user_lookup` on a valid mention.  A freshly parsed `User` (default
`interval=10`) is registered if the steam id is new; otherwise the known
object is merged via `update`, its `seen["user_lookup"]` series is bumped at
the world's current timestamp, and the (mutated) known object is returned. -/
def user_lookup (w : PWorld) (m : Mention) : Except PyError (PUser × PWorld) :=
  let user := mkUser m 10
  match w.known_users m.steam_id with
  | some known =>
      let known1 := known.update user
      match userCounterAdd known1 "seen" (CKey.str "user_lookup")
          w.timestamp 1 with
      | .error e => .error e
      | .ok known2 =>
          .ok (known2, { w with known_users := fun sid =>
            if sid = m.steam_id then some known2 else w.known_users sid })
  | none =>
      .ok (user, { w with known_users := fun sid =>
        if sid = m.steam_id then some user else w.known_users sid })

/-- A sequence of `user_lookup` calls, threading the world. -/
def lookupFold (w : PWorld) : List Mention → Except PyError PWorld
  | [] => .ok w
  | m :: ms =>
    match user_lookup w m with
    | .error e => .error e
    | .ok (_, w') => lookupFold w' ms

/-! ## Invariants and write lemmas for counters -/

theorem setitemT_dtypeOk {V : Type} (s : Series V) (key : Nat) (value : V) :
    (s.setitemT key value).dtypeOk = s.dtypeOk := rfl

theorem setitemT_interval {V : Type} (s : Series V) (key : Nat) (value : V) :
    (s.setitemT key value).interval = s.interval := rfl

theorem setitemT_keepLast {V : Type} (s : Series V) (key : Nat) (value : V) :
    (s.setitemT key value).keepLast = s.keepLast := rfl

theorem setitemT_zero {V : Type} (s : Series V) (key : Nat) (value : V) :
    (s.setitemT key value).zero = s.zero := rfl

/-- Configuration invariant of the series a `Counter` stores: they were all
built by the counter's constructor (`datatype=int`, summing aggregator, the
counter's interval, no carry-forward). -/
def CounterWF (interval : Nat) (c : PCounter) : Prop :=
  ∀ k s, c k = some s →
    s.dtypeOk = (fun _ => true) ∧ s.agg = (fun o n => o + n) ∧
    s.interval = interval ∧ s.keepLast = false ∧ s.zero = 0

/-- All of a user's counters satisfy the configuration invariant. -/
def UserWF (u : PUser) : Prop :=
  ∀ cname, CounterWF u.interval (u.counters cname)

theorem counterGet_config (interval : Nat) (c : PCounter)
    (hWF : CounterWF interval c) (k : CKey) :
    (counterGet interval c k).dtypeOk = (fun _ => true) ∧
    (counterGet interval c k).agg = (fun o n => o + n) ∧
    (counterGet interval c k).interval = interval := by
  unfold counterGet
  cases hck : c k with
  | none => exact ⟨rfl, rfl, rfl⟩
  | some s =>
      obtain ⟨h1, h2, h3, _, _⟩ := hWF k s hck
      exact ⟨h1, h2, h3⟩

theorem counterAdd_ok (interval : Nat) (c : PCounter)
    (hWF : CounterWF interval c) (k : CKey) (ts : Nat) (v : Int) :
    ∃ c', counterAdd interval c k ts v = .ok c' ∧ CounterWF interval c' ∧
      (∀ k', k' ≠ k → c' k' = c k') ∧
      (counterGet interval c' k).store (ts / interval * interval) =
        some (((counterGet interval c k).store
          (ts / interval * interval)).getD 0 + v) ∧
      (∀ b, b ≠ ts / interval * interval →
        (counterGet interval c' k).store b =
          (counterGet interval c k).store b) := by
  obtain ⟨hdt, hagg, hint⟩ := counterGet_config interval c hWF k
  have hfloor : (counterGet interval c k).floorTime ts =
      ts / interval * interval := by
    rw [Series.floorTime, hint]
  have hok : (counterGet interval c k).setitem ts v =
      .ok ((counterGet interval c k).setitemT ts v) :=
    setitem_eq_ok _ ts v (by rw [hdt])
  refine ⟨fun k' => if k' = k
      then some ((counterGet interval c k).setitemT ts v) else c k',
    ?_, ?_, ?_, ?_, ?_⟩
  · unfold counterAdd
    rw [hok]
  · intro k' s' h
    replace h : (if k' = k
        then some ((counterGet interval c k).setitemT ts v) else c k') =
        some s' := h
    by_cases hk : k' = k
    · rw [if_pos hk] at h
      have hse : ((counterGet interval c k).setitemT ts v) = s' :=
        Option.some.inj h
      subst hse
      refine ⟨?_, ?_, ?_, ?_, ?_⟩
      · rw [setitemT_dtypeOk, hdt]
      · rw [setitemT_agg, hagg]
      · rw [setitemT_interval, hint]
      · rw [setitemT_keepLast]
        unfold counterGet
        cases hck : c k with
        | none => rfl
        | some s => exact (hWF k s hck).2.2.2.1
      · rw [setitemT_zero]
        unfold counterGet
        cases hck : c k with
        | none => rfl
        | some s => exact (hWF k s hck).2.2.2.2
    · rw [if_neg hk] at h
      exact hWF k' s' h
  · intro k' hk
    simp [hk]
  · have hc'k : counterGet interval
        (fun k' => if k' = k
          then some ((counterGet interval c k).setitemT ts v) else c k') k =
        (counterGet interval c k).setitemT ts v := by
      unfold counterGet
      simp
    rw [hc'k, setitemT_store, hfloor, if_pos rfl, hagg]
    cases hsb : (counterGet interval c k).store (ts / interval * interval) with
    | some old => simp
    | none => simp
  · intro b hb
    have hc'k : counterGet interval
        (fun k' => if k' = k
          then some ((counterGet interval c k).setitemT ts v) else c k') k =
        (counterGet interval c k).setitemT ts v := by
      unfold counterGet
      simp
    rw [hc'k, setitemT_store, hfloor, if_neg hb]

theorem userCounterAdd_ok (u : PUser) (hWF : UserWF u) (cname : String)
    (k : CKey) (ts : Nat) (v : Int) :
    ∃ u', userCounterAdd u cname k ts v = .ok u' ∧ UserWF u' ∧
      u'.steam_id = u.steam_id ∧ u'.name = u.name ∧ u'.team = u.team ∧
      u'.original_team = u.original_team ∧ u'.server_id = u.server_id ∧
      u'.player_class = u.player_class ∧
      u'.played_classes = u.played_classes ∧ u'.interval = u.interval ∧
      u'.positions = u.positions ∧
      (∀ n, n ≠ cname → u'.counters n = u.counters n) ∧
      (counterGet u.interval (u'.counters cname) k).store
          (ts / u.interval * u.interval) =
        some (((counterGet u.interval (u.counters cname) k).store
          (ts / u.interval * u.interval)).getD 0 + v) ∧
      (∀ k', k' ≠ k → u'.counters cname k' = u.counters cname k') ∧
      (∀ b, b ≠ ts / u.interval * u.interval →
        (counterGet u.interval (u'.counters cname) k).store b =
          (counterGet u.interval (u.counters cname) k).store b) := by
  obtain ⟨c', hadd, hCWF, hframe, hbump, hbframe⟩ :=
    counterAdd_ok u.interval (u.counters cname) (hWF cname) k ts v
  refine ⟨{ u with counters := fun n => if n = cname then c'
      else u.counters n },
    ?_, ?_, rfl, rfl, rfl, rfl, rfl, rfl, rfl, rfl, rfl, ?_, ?_, ?_, ?_⟩
  · unfold userCounterAdd
    rw [hadd]
  · intro n
    by_cases hn : n = cname
    · subst hn; simpa using hCWF
    · simpa [hn] using hWF n
  · intro n hn
    simp [hn]
  · simpa using hbump
  · intro k' hk
    simpa using hframe k' hk
  · intro b hb
    simpa using hbframe b hb

/-! ## Entity resolution: single lookup steps and folds -/

/-- Invariant of one registry slot: the registered user has well-formed
counters and carries the slot's steam id. -/
def EntryInv (sid : String) (w : PWorld) : Prop :=
  ∀ u, w.known_users sid = some u → UserWF u ∧ u.steam_id = sid

theorem mkUser_WF (m : Mention) (interval : Nat) :
    UserWF (mkUser m interval) := by
  intro cname k s h
  exact Option.noConfusion h

/-- Lookup of a known steam id: merge, bump the seen counter, return the
(updated) registered object. -/
theorem user_lookup_known (w : PWorld) (m : Mention) (known : PUser)
    (hk : w.known_users m.steam_id = some known) (hWF : UserWF known) :
    ∃ u' w', user_lookup w m = .ok (u', w') ∧
      w'.known_users m.steam_id = some u' ∧ UserWF u' ∧
      u'.steam_id = known.steam_id ∧
      u'.name = m.username ∧ u'.team = m.team ∧
      u'.original_team = (if known.original_team = "Blue" ∨
          known.original_team = "Red" then known.original_team
        else m.team) ∧
      u'.server_id = known.server_id ∧
      u'.player_class = known.player_class ∧
      u'.played_classes = known.played_classes ∧
      u'.interval = known.interval ∧
      (∀ sid, sid ≠ m.steam_id → w'.known_users sid = w.known_users sid) ∧
      w'.timestamp = w.timestamp := by
  have hWF1 : UserWF (known.update (mkUser m 10)) := hWF
  obtain ⟨u2, hadd, hWF2, hsteam, hname, hteam, horig, hserver, hclass,
    hplayed, hint, _, _, _, _, _⟩ :=
    userCounterAdd_ok (known.update (mkUser m 10)) hWF1 "seen"
      (CKey.str "user_lookup") w.timestamp 1
  refine ⟨u2,
    { w with known_users := fun sid =>
        if sid = m.steam_id then some u2 else w.known_users sid },
    ?_, by simp, hWF2, ?_, ?_, ?_, ?_, ?_, ?_, ?_, ?_, ?_, rfl⟩
  · simp only [user_lookup, hk, hadd]
  · rw [hsteam]; rfl
  · rw [hname]; rfl
  · rw [hteam]; rfl
  · rw [horig]; rfl
  · rw [hserver]; rfl
  · rw [hclass]; rfl
  · rw [hplayed]; rfl
  · rw [hint]; rfl
  · intro sid hs
    simp [hs]

/-- Lookup of a new steam id: register the freshly parsed user. -/
theorem user_lookup_new (w : PWorld) (m : Mention)
    (hk : w.known_users m.steam_id = none) :
    user_lookup w m = .ok (mkUser m 10,
      { w with known_users := fun sid =>
          if sid = m.steam_id then some (mkUser m 10)
          else w.known_users sid }) := by
  unfold user_lookup
  rw [hk]

/-- Folding same-identity lookups never raises, keeps the slot invariant,
leaves other slots alone, and leaves a registered entry whenever one existed
or at least one mention was processed. -/
theorem lookupFold_inv (sid : String) :
    ∀ (ms : List Mention) (w : PWorld),
      (∀ m ∈ ms, m.steam_id = sid) → EntryInv sid w →
      ∃ w', lookupFold w ms = .ok w' ∧ EntryInv sid w' ∧
        (∀ sid', sid' ≠ sid → w'.known_users sid' = w.known_users sid') ∧
        ((ms ≠ [] ∨ (∃ u, w.known_users sid = some u)) →
          ∃ u, w'.known_users sid = some u)
  | [], w, _, hinv =>
      ⟨w, rfl, hinv, fun _ _ => rfl, fun h => by
        rcases h with h | h
        · exact absurd rfl h
        · exact h⟩
  | m :: ms, w, hms, hinv => by
      have hmsid : m.steam_id = sid := hms m (List.mem_cons_self _ _)
      have hms' : ∀ m' ∈ ms, m'.steam_id = sid :=
        fun m' hm' => hms m' (List.mem_cons_of_mem _ hm')
      cases hk : w.known_users m.steam_id with
      | none =>
          have hstep := user_lookup_new w m hk
          have hinv1 : EntryInv sid
              { w with known_users := fun sid' =>
                  if sid' = m.steam_id then some (mkUser m 10)
                  else w.known_users sid' } := by
            intro u hu
            rw [hmsid] at hu
            simp only [if_pos rfl] at hu
            have : mkUser m 10 = u := Option.some.inj hu
            subst this
            exact ⟨mkUser_WF m 10, hmsid⟩
          obtain ⟨w', hfold, hinv', hframe', hsome⟩ :=
            lookupFold_inv sid ms _ hms' hinv1
          refine ⟨w', ?_, hinv', ?_, ?_⟩
          · simp only [lookupFold, hstep]
            exact hfold
          · intro sid' hs
            rw [hframe' sid' hs]
            have hne : sid' ≠ m.steam_id := fun h => hs (h.trans hmsid)
            simp [hne]
          · intro _
            refine hsome (Or.inr ⟨mkUser m 10, ?_⟩)
            rw [hmsid]
            simp
      | some known =>
          obtain ⟨hWFk, _⟩ := hinv known (hmsid ▸ hk)
          obtain ⟨u1, w1, hstep, hreg, hWF1, hsteam1, _, _, _, _, _, _, _,
            hframe1, _⟩ := user_lookup_known w m known hk hWFk
          have hinv1 : EntryInv sid w1 := by
            intro u hu
            rw [hmsid] at hreg
            have : u1 = u := Option.some.inj (hreg ▸ hu)
            subst this
            refine ⟨hWF1, ?_⟩
            rw [hsteam1]
            exact (hinv known (hmsid ▸ hk)).2
          obtain ⟨w', hfold, hinv', hframe', hsome⟩ :=
            lookupFold_inv sid ms w1 hms' hinv1
          refine ⟨w', ?_, hinv', ?_, ?_⟩
          · simp only [lookupFold, hstep]
            exact hfold
          · intro sid' hs
            rw [hframe' sid' hs, hframe1 sid' (fun h => hs (h.trans hmsid))]
          · intro _
            exact hsome (Or.inr ⟨u1, hmsid ▸ hreg⟩)

/-- Along a same-identity fold, the registered entry keeps its server slot
and, once its original team is a real team, its original team. -/
theorem lookupFold_field_inv (sid : String) :
    ∀ (ms : List Mention) (w : PWorld) (u : PUser),
      (∀ m ∈ ms, m.steam_id = sid) → EntryInv sid w →
      w.known_users sid = some u →
      ∀ w', lookupFold w ms = .ok w' →
        ∃ u', w'.known_users sid = some u' ∧
          u'.server_id = u.server_id ∧
          ((u.original_team = "Blue" ∨ u.original_team = "Red") →
            u'.original_team = u.original_team)
  | [], w, u, _, _, hu, w', hfold => by
      have : w = w' := Except.ok.inj hfold
      subst this
      exact ⟨u, hu, rfl, fun _ => rfl⟩
  | m :: ms, w, u, hms, hinv, hu, w', hfold => by
      have hmsid : m.steam_id = sid := hms m (List.mem_cons_self _ _)
      have hms' : ∀ m' ∈ ms, m'.steam_id = sid :=
        fun m' hm' => hms m' (List.mem_cons_of_mem _ hm')
      have hk : w.known_users m.steam_id = some u := by rw [hmsid]; exact hu
      obtain ⟨hWFu, hsidu⟩ := hinv u hu
      obtain ⟨u1, w1, hstep, hreg, hWF1, hsteam1, _, _, horig1, hserver1, _,
        _, _, _, _⟩ := user_lookup_known w m u hk hWFu
      rw [hmsid] at hreg
      have hinv1 : EntryInv sid w1 := by
        intro u2 hu2
        have : u1 = u2 := Option.some.inj (hreg ▸ hu2)
        subst this
        exact ⟨hWF1, hsteam1.trans hsidu⟩
      rw [lookupFold, hstep] at hfold
      obtain ⟨u', hu', hserver', horig'⟩ :=
        lookupFold_field_inv sid ms w1 u1 hms' hinv1 hreg w' hfold
      refine ⟨u', hu', by rw [hserver', hserver1], ?_⟩
      intro hBR
      have h1 : u1.original_team = u.original_team := by
        rw [horig1, if_pos hBR]
      rw [horig' (h1 ▸ hBR), h1]

/-- **C3**: all lookups of valid mentions sharing one steam id return the
registered player object (each call's returned user is exactly the slot's
registered entry afterwards); after each call the entry's name and team are
the most recent mention's; and once the entry's original team is Blue or Red
no later lookup changes it. -/
theorem C3_user_lookup_same_identity (w : PWorld) (sid : String)
    (ms : List Mention)
    (hsid : ∀ m ∈ ms, m.steam_id = sid)
    (hstart : w.known_users sid = none) :
    (∀ pre m post, ms = pre ++ m :: post →
      ∃ wk u w', lookupFold w pre = .ok wk ∧
        user_lookup wk m = .ok (u, w') ∧
        w'.known_users sid = some u ∧ u.steam_id = sid ∧
        u.name = m.username ∧ u.team = m.team) ∧
    (∀ pre post w₁ w₂ u₁ u₂, ms = pre ++ post →
      lookupFold w pre = .ok w₁ → lookupFold w₁ post = .ok w₂ →
      w₁.known_users sid = some u₁ → w₂.known_users sid = some u₂ →
      (u₁.original_team = "Blue" ∨ u₁.original_team = "Red") →
      u₂.original_team = u₁.original_team) := by
  have hinv0 : EntryInv sid w := by
    intro u hu
    rw [hstart] at hu
    exact Option.noConfusion hu
  constructor
  · intro pre m post hsplit
    have hpre : ∀ m' ∈ pre, m'.steam_id = sid := by
      intro m' hm'
      exact hsid m' (hsplit ▸ List.mem_append_left _ hm')
    have hm : m.steam_id = sid :=
      hsid m (hsplit ▸ List.mem_append_right _ (List.mem_cons_self _ _))
    obtain ⟨wk, hfold, hinvk, _, _⟩ := lookupFold_inv sid pre w hpre hinv0
    cases hkk : wk.known_users m.steam_id with
    | none =>
        refine ⟨wk, mkUser m 10, _, hfold, user_lookup_new wk m hkk,
          ?_, hm, rfl, rfl⟩
        rw [← hm]
        simp
    | some known =>
        obtain ⟨hWFk, _⟩ := hinvk known (hm ▸ hkk)
        obtain ⟨u', w', hstep, hreg, _, hsteam, hname, hteam, _, _, _, _, _,
          _, _⟩ := user_lookup_known wk m known hkk hWFk
        refine ⟨wk, u', w', hfold, hstep, hm ▸ hreg, ?_, hname, hteam⟩
        rw [hsteam]
        exact (hinvk known (hm ▸ hkk)).2
  · intro pre post w₁ w₂ u₁ u₂ hsplit hf1 hf2 hu1 hu2 hBR
    have hpre : ∀ m' ∈ pre, m'.steam_id = sid := by
      intro m' hm'
      exact hsid m' (hsplit ▸ List.mem_append_left _ hm')
    have hpost : ∀ m' ∈ post, m'.steam_id = sid := by
      intro m' hm'
      exact hsid m' (hsplit ▸ List.mem_append_right _ hm')
    obtain ⟨w₁', hfold', hinv₁', _, _⟩ := lookupFold_inv sid pre w hpre hinv0
    have hw₁ : w₁' = w₁ := Except.ok.inj (hfold' ▸ hf1)
    rw [hw₁] at hinv₁'
    obtain ⟨u', hu', _, horig'⟩ :=
      lookupFold_field_inv sid post w₁ u₁ hpost hinv₁' hu1 w₂ hf2
    have : u' = u₂ := Option.some.inj (hu' ▸ hu2)
    subst this
    exact horig' hBR

/-- **C10**: merging a later mention into a known player overwrites name and
team but never the server slot (`self.server_id = self.server_id`); along any
same-identity lookup sequence the registered entry keeps the server id of its
very first mention. -/
theorem C10_server_id_never_updated (w : PWorld) (sid : String)
    (m₀ : Mention) (rest : List Mention)
    (hsid : ∀ m ∈ m₀ :: rest, m.steam_id = sid)
    (hstart : w.known_users sid = none) :
    (∀ self other : PUser,
      (self.update other).server_id = self.server_id ∧
      (self.update other).name = other.name ∧
      (self.update other).team = other.team) ∧
    ∃ w', lookupFold w (m₀ :: rest) = .ok w' ∧
      ∃ u, w'.known_users sid = some u ∧ u.server_id = m₀.server_id := by
  refine ⟨fun _ _ => ⟨rfl, rfl, rfl⟩, ?_⟩
  have hm₀ : m₀.steam_id = sid := hsid m₀ (List.mem_cons_self _ _)
  have hrest : ∀ m ∈ rest, m.steam_id = sid :=
    fun m hm => hsid m (List.mem_cons_of_mem _ hm)
  have hk : w.known_users m₀.steam_id = none := by rw [hm₀]; exact hstart
  obtain ⟨w1, hstep', hreg1⟩ :
      ∃ w1, user_lookup w m₀ = .ok (mkUser m₀ 10, w1) ∧
        w1.known_users sid = some (mkUser m₀ 10) := by
    refine ⟨_, user_lookup_new w m₀ hk, ?_⟩
    simp [hm₀]
  have hinv1 : EntryInv sid w1 := by
    intro u hu
    have : mkUser m₀ 10 = u := Option.some.inj (hreg1 ▸ hu)
    subst this
    exact ⟨mkUser_WF m₀ 10, hm₀⟩
  obtain ⟨w', hfold, hinv', _, _⟩ :=
    lookupFold_inv sid rest w1 hrest hinv1
  obtain ⟨u', hu', hserver', _⟩ :=
    lookupFold_field_inv sid rest w1 (mkUser m₀ 10) hrest hinv1 hreg1 w' hfold
  refine ⟨w', ?_, u', hu', hserver'⟩
  simp only [lookupFold, hstep']
  exact hfold

/-- A world as `World.__init__` plus a current timestamp of 0. -/
def emptyWorld : PWorld :=
  { known_users := fun _ => none, timestamp := 0, first_timestamp := none,
    last_timestamp := none, filename := "", mapname := "",
    team_names := fun t =>
      if t = "Red" then some "RED"
      else if t = "Blue" then some "BLU" else none }

/-- Alice mentioned twice: first from team Red with slot 1, then renamed on
team Blue with slot 7. -/
def mentionA1 : Mention :=
  { username := "Alice", steam_id := "[U:1:111]", team := "Red",
    server_id := "1" }

def mentionA2 : Mention :=
  { username := "Alicia", steam_id := "[U:1:111]", team := "Blue",
    server_id := "7" }

theorem C3_witness :
    ∃ wk u w', lookupFold emptyWorld [mentionA1] = .ok wk ∧
      user_lookup wk mentionA2 = .ok (u, w') ∧
      w'.known_users "[U:1:111]" = some u ∧ u.steam_id = "[U:1:111]" ∧
      u.name = "Alicia" ∧ u.team = "Blue" := by
  have hsid : ∀ m ∈ [mentionA1, mentionA2], m.steam_id = "[U:1:111]" := by
    intro m hm
    rcases List.mem_cons.mp hm with h | h
    · subst h; rfl
    · rcases List.mem_cons.mp h with h' | h'
      · subst h'; rfl
      · simp at h'
  exact (C3_user_lookup_same_identity emptyWorld "[U:1:111]"
      [mentionA1, mentionA2] hsid rfl).1 [mentionA1] mentionA2 [] rfl

theorem C10_witness :
    ∃ w', lookupFold emptyWorld [mentionA1, mentionA2] = .ok w' ∧
      ∃ u, w'.known_users "[U:1:111]" = some u ∧ u.server_id = "1" := by
  have hsid : ∀ m ∈ [mentionA1, mentionA2], m.steam_id = "[U:1:111]" := by
    intro m hm
    rcases List.mem_cons.mp hm with h | h
    · subst h; rfl
    · rcases List.mem_cons.mp h with h' | h'
      · subst h'; rfl
      · simp at h'
  exact (C10_server_id_never_updated emptyWorld "[U:1:111]" mentionA1
    [mentionA2] hsid rfl).2

/-! ## Event application: KillLine, DamagePlayerTriggerLine,
TournamentModeLine

The `update_world` methods mutate the `source`/`target` `User` objects held
in `world.known_users`; we model that registry as a map from steam id to
user, threading each counter write through it (so source-equals-target
aliasing would be handled by the map, though the claims below take the two
distinct). -/

def UserMap : Type := String → Option PUser

/-- Run a mutating step against the registered user object with the given
steam id (the object is guaranteed present when `update_world` runs, since
`parse` resolved it). -/
def withUser (users : UserMap) (sid : String)
    (f : PUser → Except PyError PUser) : Except PyError UserMap :=
  match users sid with
  | some u =>
      match f u with
      | .error e => .error e
      | .ok u' => .ok (fun sid' => if sid' = sid then some u' else users sid')
  | none => .error .keyError

/-- The stored value of one counter bucket
(`user.counters[cname][k]._values.get(b)`). -/
def counterBucket (u : PUser) (cname : String) (k : CKey) (b : Nat) :
    Option Int :=
  (counterGet u.interval (u.counters cname) k).store b

/-- `KillLine.update_world`, lines 716–729 of `parser.py`: `feign_death`
short-circuits into the feign counters; `headshot`/`backstab` add a
specialised kill counter; then the common kill/death/med-pick writes. -/
def killCommon (users : UserMap) (srcId tgtId : String) (ts : Nat) :
    Except PyError UserMap :=
  match withUser users srcId
      (fun u => userCounterAdd u "kills" (CKey.user tgtId) ts 1) with
  | .error e => .error e
  | .ok users1 =>
    match withUser users1 tgtId
        (fun u => userCounterAdd u "deaths" (CKey.user srcId) ts 1) with
    | .error e => .error e
    | .ok users2 =>
      match users2 tgtId with
      | none => .error .keyError
      | some tgt =>
        if tgt.player_class = some "Medic" then
          withUser users2 srcId
            (fun u => userCounterAdd u "med_picks" (CKey.user tgtId) ts 1)
        else .ok users2

def killUpdate (users : UserMap) (srcId tgtId : String) (ts : Nat)
    (customkill : Option String) : Except PyError UserMap :=
  match customkill with
  | some ck =>
    if ck = "feign_death" then
      match withUser users srcId
          (fun u => userCounterAdd u "feigns_triggered" (CKey.user tgtId) ts 1) with
      | .error e => .error e
      | .ok users1 =>
          withUser users1 tgtId
            (fun u => userCounterAdd u "feigns" (CKey.user srcId) ts 1)
    else
      match (if ck = "headshot" then
               withUser users srcId
                 (fun u => userCounterAdd u "headshot_kills" (CKey.user tgtId) ts 1)
             else if ck = "backstab" then
               withUser users srcId
                 (fun u => userCounterAdd u "backstab_kills" (CKey.user tgtId) ts 1)
             else .ok users) with
      | .error e => .error e
      | .ok users1 => killCommon users1 srcId tgtId ts
  | none => killCommon users srcId tgtId ts

/-- `DamagePlayerTriggerLine.update_world`, lines 692–706: raw damage into
`damage`/`damage_by_weapon`; `realdamage` (or raw damage as fallback) into
`realdamage`/`damage_received`/`realdamage_by_weapon`; presence of
`headshot`/`airshot` payload keys adds 1 each. -/
def damageUpdate (users : UserMap) (srcId tgtId : String) (ts : Nat)
    (dmg : Int) (weapon : String) (realdamage : Option Int)
    (hshot ashot : Bool) : Except PyError UserMap :=
  match withUser users srcId
      (fun u => userCounterAdd u "damage" (CKey.user tgtId) ts dmg) with
  | .error e => .error e
  | .ok users1 =>
    match withUser users1 srcId
        (fun u => userCounterAdd u "damage_by_weapon" (CKey.str weapon) ts dmg) with
    | .error e => .error e
    | .ok users2 =>
      match ((match realdamage with
             | some rd =>
               match withUser users2 srcId
                   (fun u => userCounterAdd u "realdamage" (CKey.user tgtId) ts rd) with
               | .error e => .error e
               | .ok users3 =>
                 match withUser users3 tgtId
                     (fun u => userCounterAdd u "damage_received" (CKey.user srcId) ts rd) with
                 | .error e => .error e
                 | .ok users4 =>
                   withUser users4 srcId
                     (fun u => userCounterAdd u "realdamage_by_weapon" (CKey.str weapon) ts rd)
             | none =>
               match withUser users2 srcId
                   (fun u => userCounterAdd u "realdamage" (CKey.user tgtId) ts dmg) with
               | .error e => .error e
               | .ok users3 =>
                 match withUser users3 tgtId
                     (fun u => userCounterAdd u "damage_received" (CKey.user srcId) ts dmg) with
                 | .error e => .error e
                 | .ok users4 =>
                   withUser users4 srcId
                     (fun u => userCounterAdd u "realdamage_by_weapon" (CKey.str weapon) ts dmg)) :
            Except PyError UserMap) with
      | .error e => .error e
      | .ok users5 =>
        match ((if hshot then
                 withUser users5 srcId
                   (fun u => userCounterAdd u "headshots" (CKey.user tgtId) ts 1)
               else .ok users5) : Except PyError UserMap) with
        | .error e => .error e
        | .ok users6 =>
            if ashot then
              withUser users6 srcId
                (fun u => userCounterAdd u "airshots" (CKey.user tgtId) ts 1)
            else .ok users6

/-- `TournamentModeLine.update_world`: reset every known user's counters and
record the event's timestamp as the world's first timestamp. -/
def tournamentUpdate (w : PWorld) (ts : Nat) : PWorld :=
  { w with
    known_users := fun sid => (w.known_users sid).map PUser.reset_counters,
    first_timestamp := some ts }

/-- One counter write against the registry: the target slot's user gets the
bump, everything else is framed. -/
theorem withUserCounterAdd_ok (users : UserMap) (sid : String) (u : PUser)
    (hu : users sid = some u) (hWF : UserWF u) (cname : String) (k : CKey)
    (ts : Nat) (v : Int) :
    ∃ users' u',
      withUser users sid (fun x => userCounterAdd x cname k ts v) =
        .ok users' ∧
      users' sid = some u' ∧
      (∀ s', s' ≠ sid → users' s' = users s') ∧
      UserWF u' ∧ u'.interval = u.interval ∧
      u'.player_class = u.player_class ∧
      (∀ n, n ≠ cname → u'.counters n = u.counters n) ∧
      counterBucket u' cname k (ts / u.interval * u.interval) =
        some ((counterBucket u cname k (ts / u.interval * u.interval)).getD 0
          + v) ∧
      (∀ k', k' ≠ k → u'.counters cname k' = u.counters cname k') := by
  obtain ⟨u', hadd, hWF', _, _, _, _, _, hclass, _, hint, _, hcframe, hbump,
    hkframe, _⟩ := userCounterAdd_ok u hWF cname k ts v
  refine ⟨fun sid' => if sid' = sid then some u' else users sid', u', ?_,
    by simp, ?_, hWF', hint, hclass, hcframe, ?_, hkframe⟩
  · simp only [withUser, hu, hadd]
  · intro s' hs
    simp [hs]
  · unfold counterBucket
    rw [hint]
    exact hbump

/-- Specification of the common kill/death/med-pick writes. -/
theorem killCommon_ok (users : UserMap) (srcId tgtId : String)
    (su tu : PUser) (ts : Nat)
    (hsrc : users srcId = some su) (htgt : users tgtId = some tu)
    (hne : srcId ≠ tgtId) (hWFs : UserWF su) (hWFt : UserWF tu) :
    ∃ users' su' tu', killCommon users srcId tgtId ts = .ok users' ∧
      users' srcId = some su' ∧ users' tgtId = some tu' ∧
      UserWF su' ∧ UserWF tu' ∧
      su'.interval = su.interval ∧ tu'.interval = tu.interval ∧
      su'.player_class = su.player_class ∧
      tu'.player_class = tu.player_class ∧
      counterBucket su' "kills" (CKey.user tgtId)
          (ts / su.interval * su.interval) =
        some ((counterBucket su "kills" (CKey.user tgtId)
          (ts / su.interval * su.interval)).getD 0 + 1) ∧
      counterBucket tu' "deaths" (CKey.user srcId)
          (ts / tu.interval * tu.interval) =
        some ((counterBucket tu "deaths" (CKey.user srcId)
          (ts / tu.interval * tu.interval)).getD 0 + 1) ∧
      (tu.player_class = some "Medic" →
        counterBucket su' "med_picks" (CKey.user tgtId)
            (ts / su.interval * su.interval) =
          some ((counterBucket su "med_picks" (CKey.user tgtId)
            (ts / su.interval * su.interval)).getD 0 + 1)) ∧
      (tu.player_class ≠ some "Medic" →
        su'.counters "med_picks" = su.counters "med_picks") ∧
      (∀ n, n ≠ "kills" → n ≠ "med_picks" → su'.counters n = su.counters n) ∧
      (∀ n, n ≠ "deaths" → tu'.counters n = tu.counters n) ∧
      (∀ s', s' ≠ srcId → s' ≠ tgtId → users' s' = users s') := by
  have hne' : tgtId ≠ srcId := fun h => hne h.symm
  obtain ⟨users1, su1, hw1, hsrc1, hframe1, hWFs1, hint1, hclass1, hcf1,
    hbump1, _⟩ :=
    withUserCounterAdd_ok users srcId su hsrc hWFs "kills"
      (CKey.user tgtId) ts 1
  have htgt1 : users1 tgtId = some tu := by rw [hframe1 tgtId hne']; exact htgt
  obtain ⟨users2, tu1, hw2, htgt2, hframe2, hWFt1, hint2, hclass2, hcf2,
    hbump2, _⟩ :=
    withUserCounterAdd_ok users1 tgtId tu htgt1 hWFt "deaths"
      (CKey.user srcId) ts 1
  have hsrc2 : users2 srcId = some su1 := by rw [hframe2 srcId hne]; exact hsrc1
  by_cases hmedic : tu.player_class = some "Medic"
  · obtain ⟨users3, su2, hw3, hsrc3, hframe3, hWFs2, hint3, hclass3, hcf3,
      hbump3, _⟩ :=
      withUserCounterAdd_ok users2 srcId su1 hsrc2 hWFs1 "med_picks"
        (CKey.user tgtId) ts 1
    have htgt3 : users3 tgtId = some tu1 := by
      rw [hframe3 tgtId hne']; exact htgt2
    refine ⟨users3, su2, tu1, ?_, hsrc3, htgt3, hWFs2, hWFt1,
      hint3.trans hint1, hint2, hclass3.trans hclass1, hclass2, ?_, ?_, ?_,
      ?_, ?_, ?_, ?_⟩
    · simp only [killCommon, hw1, hw2, htgt2]
      rw [if_pos (hclass2.trans hmedic : tu1.player_class = some "Medic")]
      exact hw3
    · -- kills bump survives the med_picks write
      unfold counterBucket
      rw [hcf3 "kills" (by decide), hint3]
      exact hbump1
    · -- deaths bump on the target
      exact hbump2
    · -- med_picks bump (su1's med_picks counter is su's)
      intro _
      have h3 := hbump3
      unfold counterBucket at h3 ⊢
      rw [hint3, hint1] at h3
      rw [hint3, hint1, h3, hcf1 "med_picks" (by decide)]
    · intro h
      exact absurd hmedic h
    · intro n h1 h2
      rw [hcf3 n h2, hcf1 n h1]
    · intro n h
      exact hcf2 n h
    · intro s' h1 h2
      rw [hframe3 s' h1, hframe2 s' h2, hframe1 s' h1]
  · refine ⟨users2, su1, tu1, ?_, hsrc2, htgt2, hWFs1, hWFt1, hint1, hint2,
      hclass1, hclass2, hbump1, hbump2, ?_, ?_, ?_, ?_, ?_⟩
    · simp only [killCommon, hw1, hw2, htgt2]
      rw [if_neg (fun h => hmedic (hclass2.symm.trans h))]
    · intro h
      exact absurd h hmedic
    · intro _
      exact hcf1 "med_picks" (by decide)
    · intro n h1 _
      exact hcf1 n h1
    · intro n h
      exact hcf2 n h
    · intro s' h1 h2
      rw [hframe2 s' h2, hframe1 s' h1]

/-- `killCommon` on a source whose kills/med_picks counters and interval
агree with a reference user `su` (needed after an optional specialised-kill
pre-write). -/
theorem killCommon_shift (users0 : UserMap) (srcId tgtId : String)
    (su0 tu su : PUser) (ts : Nat)
    (hsrc0 : users0 srcId = some su0) (htgt0 : users0 tgtId = some tu)
    (hne : srcId ≠ tgtId) (hWFs0 : UserWF su0) (hWFt : UserWF tu)
    (hint0 : su0.interval = su.interval)
    (hkills0 : su0.counters "kills" = su.counters "kills")
    (hmed0 : su0.counters "med_picks" = su.counters "med_picks") :
    ∃ users' su' tu', killCommon users0 srcId tgtId ts = .ok users' ∧
      users' srcId = some su' ∧ users' tgtId = some tu' ∧
      su'.interval = su.interval ∧
      counterBucket su' "kills" (CKey.user tgtId)
          (ts / su.interval * su.interval) =
        some ((counterBucket su "kills" (CKey.user tgtId)
          (ts / su.interval * su.interval)).getD 0 + 1) ∧
      counterBucket tu' "deaths" (CKey.user srcId)
          (ts / tu.interval * tu.interval) =
        some ((counterBucket tu "deaths" (CKey.user srcId)
          (ts / tu.interval * tu.interval)).getD 0 + 1) ∧
      (tu.player_class = some "Medic" →
        counterBucket su' "med_picks" (CKey.user tgtId)
            (ts / su.interval * su.interval) =
          some ((counterBucket su "med_picks" (CKey.user tgtId)
            (ts / su.interval * su.interval)).getD 0 + 1)) ∧
      (∀ n, n ≠ "kills" → n ≠ "med_picks" →
        su'.counters n = su0.counters n) ∧
      (∀ n, n ≠ "deaths" → tu'.counters n = tu.counters n) := by
  obtain ⟨users', su', tu', hrun, hsrc', htgt', _, _, hintS, _, _, _,
    hbkill, hbdeath, hbmed, _, hcfs, hcft, _⟩ :=
    killCommon_ok users0 srcId tgtId su0 tu ts hsrc0 htgt0 hne hWFs0 hWFt
  refine ⟨users', su', tu', hrun, hsrc', htgt', hintS.trans hint0, ?_,
    hbdeath, ?_, hcfs, hcft⟩
  · have h := hbkill
    unfold counterBucket at h ⊢
    rw [hint0, hkills0] at h
    exact h
  · intro hm
    have h := hbmed hm
    unfold counterBucket at h ⊢
    rw [hint0, hmed0] at h
    exact h

/-- **C1**: a matched Kill event with `customkill = feign_death` bumps the
source's `feigns_triggered[target]` and the target's `feigns[source]` series
by 1 at the event's bucket and skips every other counter write; otherwise
the source's `kills[target]` and target's `deaths[source]` gain 1, a
`headshot`/`backstab` customkill additionally bumps the matching specialised
counter, and a Medic target additionally bumps the source's
`med_picks[target]`. -/
theorem C1_kill_update (users : UserMap) (srcId tgtId : String)
    (su tu : PUser) (ts : Nat) (ck : Option String)
    (hsrc : users srcId = some su) (htgt : users tgtId = some tu)
    (hne : srcId ≠ tgtId) (hWFs : UserWF su) (hWFt : UserWF tu) :
    (ck = some "feign_death" →
      ∃ users' su' tu', killUpdate users srcId tgtId ts ck = .ok users' ∧
        users' srcId = some su' ∧ users' tgtId = some tu' ∧
        counterBucket su' "feigns_triggered" (CKey.user tgtId)
            (ts / su.interval * su.interval) =
          some ((counterBucket su "feigns_triggered" (CKey.user tgtId)
            (ts / su.interval * su.interval)).getD 0 + 1) ∧
        counterBucket tu' "feigns" (CKey.user srcId)
            (ts / tu.interval * tu.interval) =
          some ((counterBucket tu "feigns" (CKey.user srcId)
            (ts / tu.interval * tu.interval)).getD 0 + 1) ∧
        (∀ n, n ≠ "feigns_triggered" → su'.counters n = su.counters n) ∧
        (∀ n, n ≠ "feigns" → tu'.counters n = tu.counters n)) ∧
    (ck ≠ some "feign_death" →
      ∃ users' su' tu', killUpdate users srcId tgtId ts ck = .ok users' ∧
        users' srcId = some su' ∧ users' tgtId = some tu' ∧
        counterBucket su' "kills" (CKey.user tgtId)
            (ts / su.interval * su.interval) =
          some ((counterBucket su "kills" (CKey.user tgtId)
            (ts / su.interval * su.interval)).getD 0 + 1) ∧
        counterBucket tu' "deaths" (CKey.user srcId)
            (ts / tu.interval * tu.interval) =
          some ((counterBucket tu "deaths" (CKey.user srcId)
            (ts / tu.interval * tu.interval)).getD 0 + 1) ∧
        (ck = some "headshot" →
          counterBucket su' "headshot_kills" (CKey.user tgtId)
              (ts / su.interval * su.interval) =
            some ((counterBucket su "headshot_kills" (CKey.user tgtId)
              (ts / su.interval * su.interval)).getD 0 + 1)) ∧
        (ck = some "backstab" →
          counterBucket su' "backstab_kills" (CKey.user tgtId)
              (ts / su.interval * su.interval) =
            some ((counterBucket su "backstab_kills" (CKey.user tgtId)
              (ts / su.interval * su.interval)).getD 0 + 1)) ∧
        (tu.player_class = some "Medic" →
          counterBucket su' "med_picks" (CKey.user tgtId)
              (ts / su.interval * su.interval) =
            some ((counterBucket su "med_picks" (CKey.user tgtId)
              (ts / su.interval * su.interval)).getD 0 + 1))) := by
  have hne' : tgtId ≠ srcId := fun h => hne h.symm
  constructor
  · intro hck
    subst hck
    obtain ⟨users1, su1, hw1, hsrc1, hframe1, _, _, _, hcf1, hbump1, _⟩ :=
      withUserCounterAdd_ok users srcId su hsrc hWFs "feigns_triggered"
        (CKey.user tgtId) ts 1
    have htgt1 : users1 tgtId = some tu := by
      rw [hframe1 tgtId hne']; exact htgt
    obtain ⟨users2, tu1, hw2, htgt2, hframe2, _, _, _, hcf2, hbump2, _⟩ :=
      withUserCounterAdd_ok users1 tgtId tu htgt1 hWFt "feigns"
        (CKey.user srcId) ts 1
    have hsrc2 : users2 srcId = some su1 := by
      rw [hframe2 srcId hne]; exact hsrc1
    refine ⟨users2, su1, tu1, ?_, hsrc2, htgt2, hbump1, hbump2, hcf1, hcf2⟩
    simp only [killUpdate]
    rw [if_pos trivial, hw1]
    exact hw2
  · intro hck
    cases ck with
    | none =>
        obtain ⟨users', su', tu', hrun, hsrc', htgt', _, hbk, hbd, hbm, _,
          _⟩ :=
          killCommon_shift users srcId tgtId su tu su ts hsrc htgt hne hWFs
            hWFt rfl rfl rfl
        refine ⟨users', su', tu', ?_, hsrc', htgt', hbk, hbd, ?_, ?_, hbm⟩
        · simp only [killUpdate]
          exact hrun
        · intro h; exact Option.noConfusion h
        · intro h; exact Option.noConfusion h
    | some s =>
        by_cases hs1 : s = "headshot"
        · subst hs1
          obtain ⟨users0, su0, hw0, hsrc0, hframe0, hWFs0, hint0, _, hcf0,
            hbump0, _⟩ :=
            withUserCounterAdd_ok users srcId su hsrc hWFs "headshot_kills"
              (CKey.user tgtId) ts 1
          have htgt0 : users0 tgtId = some tu := by
            rw [hframe0 tgtId hne']; exact htgt
          obtain ⟨users', su', tu', hrun, hsrc', htgt', hintS', hbk, hbd,
            hbm, hcfs', _⟩ :=
            killCommon_shift users0 srcId tgtId su0 tu su ts hsrc0 htgt0 hne
              hWFs0 hWFt hint0 (hcf0 "kills" (by decide))
              (hcf0 "med_picks" (by decide))
          refine ⟨users', su', tu', ?_, hsrc', htgt', hbk, hbd, ?_, ?_, hbm⟩
          · simp only [killUpdate]
            rw [if_neg (by decide : ¬ ("headshot" : String) = "feign_death"),
              if_pos trivial, hw0]
            exact hrun
          · intro _
            have h := hbump0
            unfold counterBucket at h ⊢
            rw [hint0] at h
            rw [hintS', hcfs' "headshot_kills" (by decide) (by decide)]
            exact h
          · intro h
            exact absurd (Option.some.inj h) (by decide)
        · by_cases hs2 : s = "backstab"
          · subst hs2
            obtain ⟨users0, su0, hw0, hsrc0, hframe0, hWFs0, hint0, _, hcf0,
              hbump0, _⟩ :=
              withUserCounterAdd_ok users srcId su hsrc hWFs "backstab_kills"
                (CKey.user tgtId) ts 1
            have htgt0 : users0 tgtId = some tu := by
              rw [hframe0 tgtId hne']; exact htgt
            obtain ⟨users', su', tu', hrun, hsrc', htgt', hintS', hbk, hbd,
              hbm, hcfs', _⟩ :=
              killCommon_shift users0 srcId tgtId su0 tu su ts hsrc0 htgt0
                hne hWFs0 hWFt hint0 (hcf0 "kills" (by decide))
                (hcf0 "med_picks" (by decide))
            refine ⟨users', su', tu', ?_, hsrc', htgt', hbk, hbd, ?_, ?_,
              hbm⟩
            · simp only [killUpdate]
              rw [if_neg (by decide : ¬ ("backstab" : String) = "feign_death"),
                if_neg (by decide : ¬ ("backstab" : String) = "headshot"),
                if_pos trivial, hw0]
              exact hrun
            · intro h
              exact absurd (Option.some.inj h) (by decide)
            · intro _
              have h := hbump0
              unfold counterBucket at h ⊢
              rw [hint0] at h
              rw [hintS', hcfs' "backstab_kills" (by decide) (by decide)]
              exact h
          · have hs3 : s ≠ "feign_death" :=
              fun h => hck (congrArg Option.some h)
            obtain ⟨users', su', tu', hrun, hsrc', htgt', _, hbk, hbd, hbm,
              _, _⟩ :=
              killCommon_shift users srcId tgtId su tu su ts hsrc htgt hne
                hWFs hWFt rfl rfl rfl
            refine ⟨users', su', tu', ?_, hsrc', htgt', hbk, hbd, ?_, ?_,
              hbm⟩
            · simp only [killUpdate]
              rw [if_neg hs3, if_neg hs1, if_neg hs2]
              exact hrun
            · intro h
              exact absurd (Option.some.inj h) hs1
            · intro h
              exact absurd (Option.some.inj h) hs2

def mentionB1 : Mention :=
  { username := "Bob", steam_id := "[U:1:222]", team := "Blue",
    server_id := "2" }

def aliceUser : PUser := mkUser mentionA1 10

def bobUser : PUser := mkUser mentionB1 10

def twoUsers : UserMap := fun sid =>
  if sid = "[U:1:111]" then some aliceUser
  else if sid = "[U:1:222]" then some bobUser else none

theorem C1_witness :
    ∃ users' su' tu',
      killUpdate twoUsers "[U:1:111]" "[U:1:222]" 100 none = .ok users' ∧
      users' "[U:1:111]" = some su' ∧ users' "[U:1:222]" = some tu' ∧
      counterBucket su' "kills" (CKey.user "[U:1:222]")
          (100 / aliceUser.interval * aliceUser.interval) =
        some ((counterBucket aliceUser "kills" (CKey.user "[U:1:222]")
          (100 / aliceUser.interval * aliceUser.interval)).getD 0 + 1) ∧
      counterBucket tu' "deaths" (CKey.user "[U:1:111]")
          (100 / bobUser.interval * bobUser.interval) =
        some ((counterBucket bobUser "deaths" (CKey.user "[U:1:111]")
          (100 / bobUser.interval * bobUser.interval)).getD 0 + 1) ∧
      ((none : Option String) = some "headshot" →
        counterBucket su' "headshot_kills" (CKey.user "[U:1:222]")
            (100 / aliceUser.interval * aliceUser.interval) =
          some ((counterBucket aliceUser "headshot_kills"
            (CKey.user "[U:1:222]")
            (100 / aliceUser.interval * aliceUser.interval)).getD 0 + 1)) ∧
      ((none : Option String) = some "backstab" →
        counterBucket su' "backstab_kills" (CKey.user "[U:1:222]")
            (100 / aliceUser.interval * aliceUser.interval) =
          some ((counterBucket aliceUser "backstab_kills"
            (CKey.user "[U:1:222]")
            (100 / aliceUser.interval * aliceUser.interval)).getD 0 + 1)) ∧
      (bobUser.player_class = some "Medic" →
        counterBucket su' "med_picks" (CKey.user "[U:1:222]")
            (100 / aliceUser.interval * aliceUser.interval) =
          some ((counterBucket aliceUser "med_picks" (CKey.user "[U:1:222]")
            (100 / aliceUser.interval * aliceUser.interval)).getD 0 + 1)) :=
  (C1_kill_update twoUsers "[U:1:111]" "[U:1:222]" aliceUser bobUser 100 none
    rfl rfl (by decide) (mkUser_WF mentionA1 10) (mkUser_WF mentionB1 10)).2
    (fun h => Option.noConfusion h)

/-- **C9**: a tournament-mode-start event resets every known player's
counter collection and position history to empty, sets the world's first
timestamp to the event's timestamp, and leaves every player's identity,
team and class state untouched. -/
theorem C9_tournament_reset (w : PWorld) (ts : Nat) :
    (tournamentUpdate w ts).first_timestamp = some ts ∧
    ∀ sid u, w.known_users sid = some u →
      (tournamentUpdate w ts).known_users sid = some u.reset_counters ∧
      (∀ cname k, u.reset_counters.counters cname k = none) ∧
      (∀ b, u.reset_counters.positions.store b = none) ∧
      u.reset_counters.positions.first = none ∧
      u.reset_counters.positions.last = none ∧
      u.reset_counters.positions.keepLast = true ∧
      u.reset_counters.positions.interval = u.interval ∧
      u.reset_counters.steam_id = u.steam_id ∧
      u.reset_counters.name = u.name ∧
      u.reset_counters.team = u.team ∧
      u.reset_counters.original_team = u.original_team ∧
      u.reset_counters.player_class = u.player_class ∧
      u.reset_counters.played_classes = u.played_classes := by
  refine ⟨rfl, ?_⟩
  intro sid u hu
  refine ⟨?_, fun _ _ => rfl, fun _ => rfl, rfl, rfl, rfl, rfl, rfl, rfl,
    rfl, rfl, rfl, rfl⟩
  simp [tournamentUpdate, hu]

def worldWithAlice : PWorld :=
  { emptyWorld with known_users := fun sid =>
      if sid = "[U:1:111]" then some aliceUser else none }

theorem C9_witness :
    (tournamentUpdate worldWithAlice 500).known_users "[U:1:111]" =
      some aliceUser.reset_counters ∧
    (∀ cname k, aliceUser.reset_counters.counters cname k = none) ∧
    (∀ b, aliceUser.reset_counters.positions.store b = none) ∧
    aliceUser.reset_counters.positions.first = none ∧
    aliceUser.reset_counters.positions.last = none ∧
    aliceUser.reset_counters.positions.keepLast = true ∧
    aliceUser.reset_counters.positions.interval = aliceUser.interval ∧
    aliceUser.reset_counters.steam_id = aliceUser.steam_id ∧
    aliceUser.reset_counters.name = aliceUser.name ∧
    aliceUser.reset_counters.team = aliceUser.team ∧
    aliceUser.reset_counters.original_team = aliceUser.original_team ∧
    aliceUser.reset_counters.player_class = aliceUser.player_class ∧
    aliceUser.reset_counters.played_classes = aliceUser.played_classes :=
  (C9_tournament_reset worldWithAlice 500).2 "[U:1:111]" aliceUser rfl

/-- The optional `headshot`/`airshot` +1 write. -/
theorem optWrite (flag : Bool) (users : UserMap) (sid : String) (u : PUser)
    (hu : users sid = some u) (hWF : UserWF u) (cname : String) (k : CKey)
    (ts : Nat) :
    ∃ users' u',
      (if flag then
        withUser users sid (fun x => userCounterAdd x cname k ts 1)
       else .ok users) = .ok users' ∧
      users' sid = some u' ∧ (∀ s', s' ≠ sid → users' s' = users s') ∧
      UserWF u' ∧ u'.interval = u.interval ∧
      u'.player_class = u.player_class ∧
      (∀ n, n ≠ cname → u'.counters n = u.counters n) ∧
      (flag = true →
        counterBucket u' cname k (ts / u.interval * u.interval) =
          some ((counterBucket u cname k
            (ts / u.interval * u.interval)).getD 0 + 1)) := by
  cases flag with
  | false =>
      exact ⟨users, u, rfl, hu, fun _ _ => rfl, hWF, rfl, rfl,
        fun _ _ => rfl, fun h => Bool.noConfusion h⟩
  | true =>
      obtain ⟨users', u', hw, hu', hf, hWF', hint, hclass, hcf, hbump, _⟩ :=
        withUserCounterAdd_ok users sid u hu hWF cname k ts 1
      exact ⟨users', u', hw, hu', hf, hWF', hint, hclass, hcf,
        fun _ => hbump⟩

/-- The `realdamage`/`damage_received`/`realdamage_by_weapon` block of a
damage trigger, for the amount `a` (the payload's realdamage if present,
else the raw damage). -/
theorem damageMid_ok (users2 : UserMap) (srcId tgtId : String)
    (su2 tu su : PUser) (weapon : String) (ts : Nat) (a : Int)
    (hsrc2 : users2 srcId = some su2) (htgt2 : users2 tgtId = some tu)
    (hne : srcId ≠ tgtId) (hWFs2 : UserWF su2) (hWFt : UserWF tu)
    (hint2 : su2.interval = su.interval)
    (hrd : su2.counters "realdamage" = su.counters "realdamage")
    (hrdw : su2.counters "realdamage_by_weapon" =
      su.counters "realdamage_by_weapon") :
    ∃ users5 su5 tu5,
      ((match withUser users2 srcId
          (fun u => userCounterAdd u "realdamage" (CKey.user tgtId) ts a) with
       | Except.error e => Except.error e
       | Except.ok users3 =>
         match withUser users3 tgtId
             (fun u => userCounterAdd u "damage_received" (CKey.user srcId) ts a) with
         | Except.error e => Except.error e
         | Except.ok users4 =>
           withUser users4 srcId
             (fun u => userCounterAdd u "realdamage_by_weapon" (CKey.str weapon) ts a)) :
        Except PyError UserMap) = .ok users5 ∧
      users5 srcId = some su5 ∧ users5 tgtId = some tu5 ∧
      UserWF su5 ∧ UserWF tu5 ∧
      su5.interval = su.interval ∧ tu5.interval = tu.interval ∧
      su5.player_class = su2.player_class ∧
      (∀ n, n ≠ "realdamage" → n ≠ "realdamage_by_weapon" →
        su5.counters n = su2.counters n) ∧
      counterBucket su5 "realdamage" (CKey.user tgtId)
          (ts / su.interval * su.interval) =
        some ((counterBucket su "realdamage" (CKey.user tgtId)
          (ts / su.interval * su.interval)).getD 0 + a) ∧
      counterBucket su5 "realdamage_by_weapon" (CKey.str weapon)
          (ts / su.interval * su.interval) =
        some ((counterBucket su "realdamage_by_weapon" (CKey.str weapon)
          (ts / su.interval * su.interval)).getD 0 + a) ∧
      counterBucket tu5 "damage_received" (CKey.user srcId)
          (ts / tu.interval * tu.interval) =
        some ((counterBucket tu "damage_received" (CKey.user srcId)
          (ts / tu.interval * tu.interval)).getD 0 + a) := by
  have hne' : tgtId ≠ srcId := fun h => hne h.symm
  obtain ⟨users3, su3, hw3, hsrc3, hframe3, hWFs3, hint3, hclass3, hcf3,
    hbump3, _⟩ :=
    withUserCounterAdd_ok users2 srcId su2 hsrc2 hWFs2 "realdamage"
      (CKey.user tgtId) ts a
  have htgt3 : users3 tgtId = some tu := by rw [hframe3 tgtId hne']; exact htgt2
  obtain ⟨users4, tu4, hw4, htgt4, hframe4, hWFt4, hint4, _, hcf4, hbump4,
    _⟩ :=
    withUserCounterAdd_ok users3 tgtId tu htgt3 hWFt "damage_received"
      (CKey.user srcId) ts a
  have hsrc4 : users4 srcId = some su3 := by rw [hframe4 srcId hne]; exact hsrc3
  obtain ⟨users5, su5, hw5, hsrc5, hframe5, hWFs5, hint5, hclass5, hcf5,
    hbump5, _⟩ :=
    withUserCounterAdd_ok users4 srcId su3 hsrc4 hWFs3 "realdamage_by_weapon"
      (CKey.str weapon) ts a
  have htgt5 : users5 tgtId = some tu4 := by rw [hframe5 tgtId hne']; exact htgt4
  refine ⟨users5, su5, tu4, ?_, hsrc5, htgt5, hWFs5, hWFt4,
    (hint5.trans hint3).trans hint2, hint4,
    (hclass5.trans hclass3).trans rfl, ?_, ?_, ?_, hbump4⟩
  · simp only [hw3, hw4]
    exact hw5
  · intro n h1 h2
    rw [hcf5 n h2, hcf3 n h1]
  · -- realdamage bump, translated to the reference user
    have h := hbump3
    unfold counterBucket at h ⊢
    rw [hint2, hrd] at h
    rw [hcf5 "realdamage" (by decide), hint5]
    exact h
  · -- realdamage_by_weapon bump
    have h := hbump5
    unfold counterBucket at h ⊢
    rw [hint3, hint2] at h
    rw [hcf3 "realdamage_by_weapon" (by decide), hrdw] at h
    exact h

/-- The straight-line core of `DamagePlayerTriggerLine.update_world`: both
branches of the `realdamage` conditional perform the same three writes, with
amount `a` = the realdamage figure when present, else the raw damage. -/
def damageCore (users : UserMap) (srcId tgtId : String) (ts : Nat)
    (dmg : Int) (weapon : String) (a : Int) (hshot ashot : Bool) :
    Except PyError UserMap :=
  match withUser users srcId
      (fun u => userCounterAdd u "damage" (CKey.user tgtId) ts dmg) with
  | .error e => .error e
  | .ok users1 =>
    match withUser users1 srcId
        (fun u => userCounterAdd u "damage_by_weapon" (CKey.str weapon) ts dmg) with
    | .error e => .error e
    | .ok users2 =>
      match ((match withUser users2 srcId
          (fun u => userCounterAdd u "realdamage" (CKey.user tgtId) ts a) with
       | Except.error e => Except.error e
       | Except.ok users3 =>
         match withUser users3 tgtId
             (fun u => userCounterAdd u "damage_received" (CKey.user srcId) ts a) with
         | Except.error e => Except.error e
         | Except.ok users4 =>
           withUser users4 srcId
             (fun u => userCounterAdd u "realdamage_by_weapon" (CKey.str weapon) ts a)) :
        Except PyError UserMap) with
      | .error e => .error e
      | .ok users5 =>
        match ((if hshot then
                 withUser users5 srcId
                   (fun u => userCounterAdd u "headshots" (CKey.user tgtId) ts 1)
               else .ok users5) : Except PyError UserMap) with
        | .error e => .error e
        | .ok users6 =>
            if ashot then
              withUser users6 srcId
                (fun u => userCounterAdd u "airshots" (CKey.user tgtId) ts 1)
            else .ok users6

theorem damageUpdate_eq_core (users : UserMap) (srcId tgtId : String)
    (ts : Nat) (dmg : Int) (weapon : String) (realdamage : Option Int)
    (hshot ashot : Bool) :
    damageUpdate users srcId tgtId ts dmg weapon realdamage hshot ashot =
      damageCore users srcId tgtId ts dmg weapon (realdamage.getD dmg)
        hshot ashot := by
  cases realdamage <;> rfl

theorem damageCore_ok (users : UserMap) (srcId tgtId : String)
    (su tu : PUser) (ts : Nat) (dmg : Int) (weapon : String) (a : Int)
    (hshot ashot : Bool)
    (hsrc : users srcId = some su) (htgt : users tgtId = some tu)
    (hne : srcId ≠ tgtId) (hWFs : UserWF su) (hWFt : UserWF tu) :
    ∃ users' su' tu',
      damageCore users srcId tgtId ts dmg weapon a hshot ashot =
        .ok users' ∧
      users' srcId = some su' ∧ users' tgtId = some tu' ∧
      counterBucket su' "damage" (CKey.user tgtId)
          (ts / su.interval * su.interval) =
        some ((counterBucket su "damage" (CKey.user tgtId)
          (ts / su.interval * su.interval)).getD 0 + dmg) ∧
      counterBucket su' "damage_by_weapon" (CKey.str weapon)
          (ts / su.interval * su.interval) =
        some ((counterBucket su "damage_by_weapon" (CKey.str weapon)
          (ts / su.interval * su.interval)).getD 0 + dmg) ∧
      counterBucket su' "realdamage" (CKey.user tgtId)
          (ts / su.interval * su.interval) =
        some ((counterBucket su "realdamage" (CKey.user tgtId)
          (ts / su.interval * su.interval)).getD 0 + a) ∧
      counterBucket su' "realdamage_by_weapon" (CKey.str weapon)
          (ts / su.interval * su.interval) =
        some ((counterBucket su "realdamage_by_weapon" (CKey.str weapon)
          (ts / su.interval * su.interval)).getD 0 + a) ∧
      counterBucket tu' "damage_received" (CKey.user srcId)
          (ts / tu.interval * tu.interval) =
        some ((counterBucket tu "damage_received" (CKey.user srcId)
          (ts / tu.interval * tu.interval)).getD 0 + a) ∧
      (hshot = true →
        counterBucket su' "headshots" (CKey.user tgtId)
            (ts / su.interval * su.interval) =
          some ((counterBucket su "headshots" (CKey.user tgtId)
            (ts / su.interval * su.interval)).getD 0 + 1)) ∧
      (ashot = true →
        counterBucket su' "airshots" (CKey.user tgtId)
            (ts / su.interval * su.interval) =
          some ((counterBucket su "airshots" (CKey.user tgtId)
            (ts / su.interval * su.interval)).getD 0 + 1)) := by
  have hne' : tgtId ≠ srcId := fun h => hne h.symm
  obtain ⟨users1, su1, hw1, hsrc1, hframe1, hWFs1, hint1, _, hcf1, hbump1,
    _⟩ :=
    withUserCounterAdd_ok users srcId su hsrc hWFs "damage"
      (CKey.user tgtId) ts dmg
  obtain ⟨users2, su2, hw2, hsrc2, hframe2, hWFs2, hint2, _, hcf2, hbump2,
    _⟩ :=
    withUserCounterAdd_ok users1 srcId su1 hsrc1 hWFs1 "damage_by_weapon"
      (CKey.str weapon) ts dmg
  have htgt2 : users2 tgtId = some tu := by
    rw [hframe2 tgtId hne', hframe1 tgtId hne']; exact htgt
  obtain ⟨users5, su5, tu5, hmid, hsrc5, htgt5, hWFs5, hWFt5, hint5, hintT5,
    hclass5, hcf5, hbrd, hbrdw, hbdr⟩ :=
    damageMid_ok users2 srcId tgtId su2 tu su weapon ts a hsrc2 htgt2 hne
      hWFs2 hWFt (hint2.trans hint1)
      (by rw [hcf2 "realdamage" (by decide), hcf1 "realdamage" (by decide)])
      (by rw [hcf2 "realdamage_by_weapon" (by decide),
        hcf1 "realdamage_by_weapon" (by decide)])
  obtain ⟨users6, su6, hw6, hsrc6, hframe6, hWFs6, hint6, _, hcf6, hbump6⟩ :=
    optWrite hshot users5 srcId su5 hsrc5 hWFs5 "headshots"
      (CKey.user tgtId) ts
  obtain ⟨users7, su7, hw7, hsrc7, hframe7, hWFs7, hint7, _, hcf7, hbump7⟩ :=
    optWrite ashot users6 srcId su6 hsrc6 hWFs6 "airshots"
      (CKey.user tgtId) ts
  have htgt7 : users7 tgtId = some tu5 := by
    rw [hframe7 tgtId hne', hframe6 tgtId hne']; exact htgt5
  refine ⟨users7, su7, tu5, ?_, hsrc7, htgt7, ?_, ?_, ?_, ?_, hbdr, ?_, ?_⟩
  · simp only [damageCore, hw1, hw2, hmid, hw6]
    exact hw7
  · -- damage bump
    have h := hbump1
    unfold counterBucket at h ⊢
    rw [hint1] at h
    rw [hcf7 "damage" (by decide), hcf6 "damage" (by decide),
      hcf5 "damage" (by decide) (by decide), hcf2 "damage" (by decide),
      hint7, hint6, hint5]
    exact h
  · -- damage_by_weapon bump
    have h := hbump2
    unfold counterBucket at h ⊢
    rw [hint2, hint1] at h
    rw [hcf1 "damage_by_weapon" (by decide)] at h
    rw [hcf7 "damage_by_weapon" (by decide), hcf6 "damage_by_weapon" (by decide),
      hcf5 "damage_by_weapon" (by decide) (by decide), hint7, hint6, hint5]
    exact h
  · -- realdamage bump
    have h := hbrd
    unfold counterBucket at h ⊢
    rw [hcf7 "realdamage" (by decide), hcf6 "realdamage" (by decide),
      hint7, hint6]
    exact h
  · -- realdamage_by_weapon bump
    have h := hbrdw
    unfold counterBucket at h ⊢
    rw [hcf7 "realdamage_by_weapon" (by decide),
      hcf6 "realdamage_by_weapon" (by decide), hint7, hint6]
    exact h
  · -- headshots
    intro hh
    have h := hbump6 hh
    unfold counterBucket at h ⊢
    rw [hint6, hint5] at h
    rw [hcf5 "headshots" (by decide) (by decide),
      hcf2 "headshots" (by decide), hcf1 "headshots" (by decide)] at h
    rw [hcf7 "headshots" (by decide), hint7, hint6, hint5]
    exact h
  · -- airshots
    intro ha
    have h := hbump7 ha
    unfold counterBucket at h ⊢
    rw [hint6, hint5] at h
    rw [hcf6 "airshots" (by decide), hcf5 "airshots" (by decide) (by decide),
      hcf2 "airshots" (by decide), hcf1 "airshots" (by decide)] at h
    exact h

/-- **C4**: a matched damage trigger adds the raw damage to the source's
`damage[target]` and `damage_by_weapon[weapon]`; the realdamage figure when
present — else the raw damage — to the source's `realdamage[target]` and
`realdamage_by_weapon[weapon]` and to the target's `damage_received[source]`;
and a `headshot` (resp. `airshot`) payload key adds 1 to the source's
`headshots[target]` (resp. `airshots[target]`), all at the event's bucket. -/
theorem C4_damage_update (users : UserMap) (srcId tgtId : String)
    (su tu : PUser) (ts : Nat) (dmg : Int) (weapon : String)
    (realdamage : Option Int) (hshot ashot : Bool)
    (hsrc : users srcId = some su) (htgt : users tgtId = some tu)
    (hne : srcId ≠ tgtId) (hWFs : UserWF su) (hWFt : UserWF tu) :
    ∃ users' su' tu',
      damageUpdate users srcId tgtId ts dmg weapon realdamage hshot ashot =
        .ok users' ∧
      users' srcId = some su' ∧ users' tgtId = some tu' ∧
      counterBucket su' "damage" (CKey.user tgtId)
          (ts / su.interval * su.interval) =
        some ((counterBucket su "damage" (CKey.user tgtId)
          (ts / su.interval * su.interval)).getD 0 + dmg) ∧
      counterBucket su' "damage_by_weapon" (CKey.str weapon)
          (ts / su.interval * su.interval) =
        some ((counterBucket su "damage_by_weapon" (CKey.str weapon)
          (ts / su.interval * su.interval)).getD 0 + dmg) ∧
      counterBucket su' "realdamage" (CKey.user tgtId)
          (ts / su.interval * su.interval) =
        some ((counterBucket su "realdamage" (CKey.user tgtId)
          (ts / su.interval * su.interval)).getD 0 + realdamage.getD dmg) ∧
      counterBucket su' "realdamage_by_weapon" (CKey.str weapon)
          (ts / su.interval * su.interval) =
        some ((counterBucket su "realdamage_by_weapon" (CKey.str weapon)
          (ts / su.interval * su.interval)).getD 0 + realdamage.getD dmg) ∧
      counterBucket tu' "damage_received" (CKey.user srcId)
          (ts / tu.interval * tu.interval) =
        some ((counterBucket tu "damage_received" (CKey.user srcId)
          (ts / tu.interval * tu.interval)).getD 0 + realdamage.getD dmg) ∧
      (hshot = true →
        counterBucket su' "headshots" (CKey.user tgtId)
            (ts / su.interval * su.interval) =
          some ((counterBucket su "headshots" (CKey.user tgtId)
            (ts / su.interval * su.interval)).getD 0 + 1)) ∧
      (ashot = true →
        counterBucket su' "airshots" (CKey.user tgtId)
            (ts / su.interval * su.interval) =
          some ((counterBucket su "airshots" (CKey.user tgtId)
            (ts / su.interval * su.interval)).getD 0 + 1)) := by
  rw [damageUpdate_eq_core]
  exact damageCore_ok users srcId tgtId su tu ts dmg weapon
    (realdamage.getD dmg) hshot ashot hsrc htgt hne hWFs hWFt

theorem C4_witness :
    ∃ users' su' tu',
      damageUpdate twoUsers "[U:1:111]" "[U:1:222]" 100 42 "rocketlauncher"
          (some 35) true false = .ok users' ∧
      users' "[U:1:111]" = some su' ∧ users' "[U:1:222]" = some tu' ∧
      counterBucket su' "damage" (CKey.user "[U:1:222]")
          (100 / aliceUser.interval * aliceUser.interval) =
        some ((counterBucket aliceUser "damage" (CKey.user "[U:1:222]")
          (100 / aliceUser.interval * aliceUser.interval)).getD 0 + 42) ∧
      counterBucket su' "damage_by_weapon" (CKey.str "rocketlauncher")
          (100 / aliceUser.interval * aliceUser.interval) =
        some ((counterBucket aliceUser "damage_by_weapon"
          (CKey.str "rocketlauncher")
          (100 / aliceUser.interval * aliceUser.interval)).getD 0 + 42) ∧
      counterBucket su' "realdamage" (CKey.user "[U:1:222]")
          (100 / aliceUser.interval * aliceUser.interval) =
        some ((counterBucket aliceUser "realdamage" (CKey.user "[U:1:222]")
          (100 / aliceUser.interval * aliceUser.interval)).getD 0 +
          (some (35 : Int)).getD 42) ∧
      counterBucket su' "realdamage_by_weapon" (CKey.str "rocketlauncher")
          (100 / aliceUser.interval * aliceUser.interval) =
        some ((counterBucket aliceUser "realdamage_by_weapon"
          (CKey.str "rocketlauncher")
          (100 / aliceUser.interval * aliceUser.interval)).getD 0 +
          (some (35 : Int)).getD 42) ∧
      counterBucket tu' "damage_received" (CKey.user "[U:1:111]")
          (100 / bobUser.interval * bobUser.interval) =
        some ((counterBucket bobUser "damage_received"
          (CKey.user "[U:1:111]")
          (100 / bobUser.interval * bobUser.interval)).getD 0 +
          (some (35 : Int)).getD 42) ∧
      (true = true →
        counterBucket su' "headshots" (CKey.user "[U:1:222]")
            (100 / aliceUser.interval * aliceUser.interval) =
          some ((counterBucket aliceUser "headshots" (CKey.user "[U:1:222]")
            (100 / aliceUser.interval * aliceUser.interval)).getD 0 + 1)) ∧
      (false = true →
        counterBucket su' "airshots" (CKey.user "[U:1:222]")
            (100 / aliceUser.interval * aliceUser.interval) =
          some ((counterBucket aliceUser "airshots" (CKey.user "[U:1:222]")
            (100 / aliceUser.interval * aliceUser.interval)).getD 0 + 1)) :=
  C4_damage_update twoUsers "[U:1:111]" "[U:1:222]" aliceUser bobUser 100 42
    "rocketlauncher" (some 35) true false rfl rfl (by decide)
    (mkUser_WF mentionA1 10) (mkUser_WF mentionB1 10)

/-! ## `Line.identify` (claim C8)

`identify` constructs each `Line` subclass until one matches; a matching
subclass's `parse` runs `parse_timestamp`, which calls
`datetime.datetime(...)` on the captured digit groups — an out-of-range
group (e.g. month 13 — `(?P<month>\d\d)` accepts it) raises `ValueError`
*inside* `identify`.  If nothing matches, the base `Line` is returned; its
matcher `re.compile("$")` matches only an empty or blank line, so its
`matched` flag is false for ordinary text.  We embed a faithful fragment of
the catalog: `LogEndLine` (`L\s{date_re}:\sLog file closed.$`),
`TeamNameLine` (`(?P<team>Red|Blue) Team: (?P<name>.*)$`) and the base
fallback; `\s` is modelled as a single whitespace character and `$` as
end-of-input or a final newline, as in `re.match`. -/

/-- Two mandatory digits (`\d\d`). -/
def digit2 : List Char → Option (Nat × List Char)
  | c1 :: c2 :: rest =>
      if c1.isDigit ∧ c2.isDigit then
        some ((c1.toNat - 48) * 10 + (c2.toNat - 48), rest)
      else none
  | _ => none

/-- One or more digits, greedily (`\d+`). -/
def digits1 (cs : List Char) : Option (Nat × List Char) :=
  let ds := cs.takeWhile Char.isDigit
  if ds.isEmpty then none
  else some (ds.foldl (fun a c => a * 10 + (c.toNat - 48)) 0, cs.drop ds.length)

/-- A single whitespace character (`\s`). -/
def wsChar : List Char → Option (List Char)
  | c :: rest => if c.isWhitespace then some rest else none
  | [] => none

/-- A literal character sequence. -/
def lit : List Char → List Char → Option (List Char)
  | [], cs => some cs
  | l :: ls, c :: cs => if c = l then lit ls cs else none
  | _ :: _, [] => none

/-- The groupdict of `date_re`. -/
structure DateGroups where
  month : Nat
  day : Nat
  year : Nat
  hour : Nat
  minute : Nat
  second : Nat
  deriving DecidableEq, Repr

/-- `date_re`:
`(?P<month>\d\d)/(?P<day>\d\d)/(?P<year>\d+)\s-\s(?P<hour>\d\d):(?P<minute>\d\d):(?P<second>\d\d)`. -/
def matchDate (cs : List Char) : Option (DateGroups × List Char) := do
  let (mo, cs) ← digit2 cs
  let cs ← lit ['/'] cs
  let (d, cs) ← digit2 cs
  let cs ← lit ['/'] cs
  let (y, cs) ← digits1 cs
  let cs ← wsChar cs
  let cs ← lit ['-'] cs
  let cs ← wsChar cs
  let (h, cs) ← digit2 cs
  let cs ← lit [':'] cs
  let (mi, cs) ← digit2 cs
  let cs ← lit [':'] cs
  let (s, cs) ← digit2 cs
  return (⟨mo, d, y, h, mi, s⟩, cs)

/-- `$`: end of input, or just before a terminating newline. -/
def endOfLine : List Char → Bool
  | [] => true
  | [c] => c = '\n'
  | _ => false

/-- `LogEndLine.matcher`: `L\s{date_re}:\sLog file closed.$` (the final `.`
is a regex any-character). -/
def matchLogEnd (line : String) : Option DateGroups := do
  let cs := line.toList
  let cs ← lit ['L'] cs
  let cs ← wsChar cs
  let (g, cs) ← matchDate cs
  let cs ← lit [':'] cs
  let cs ← wsChar cs
  let cs ← lit "Log file closed".toList cs
  match cs with
  | c :: rest => if c ≠ '\n' ∧ endOfLine rest = true then some g else none
  | [] => none

/-- `TeamNameLine.matcher`: `(?P<team>Red|Blue) Team: (?P<name>.*)$`,
alternation tried left to right as the `re` engine does. -/
def matchTeamName (line : String) : Option (String × String) :=
  let cs := line.toList
  let tryTeam := fun (team : String) =>
    match lit (team.toList ++ " Team: ".toList) cs with
    | none => none
    | some rest =>
        let nameChars := rest.takeWhile (fun c => c ≠ '\n')
        if endOfLine (rest.drop nameChars.length) then
          some (team, String.mk nameChars)
        else none
  match tryTeam "Red" with
  | some r => some r
  | none => tryTeam "Blue"

/-- `datetime.datetime(year, month, day, hour, minute, second)`: raises
`ValueError` on an out-of-range field, else an opaque encoded timestamp. -/
def daysInMonth (year month : Nat) : Nat :=
  if month = 2 then
    if year % 4 = 0 ∧ (year % 100 ≠ 0 ∨ year % 400 = 0) then 29 else 28
  else if month = 4 ∨ month = 6 ∨ month = 9 ∨ month = 11 then 30
  else 31

def mkDatetime (year month day hour minute second : Nat) :
    Except PyError Nat :=
  if 1 ≤ year ∧ year ≤ 9999 ∧ 1 ≤ month ∧ month ≤ 12 ∧ 1 ≤ day ∧
     day ≤ daysInMonth year month ∧ hour ≤ 23 ∧ minute ≤ 59 ∧ second ≤ 59
  then
    .ok (((((year * 12 + month) * 31 + day) * 24 + hour) * 60 + minute) * 60
      + second)
  else .error .valueError

/-- The events the embedded catalog fragment can produce. -/
inductive LEvent where
  | base (matchedFlag : Bool)
  | logEnd (ts : Nat)
  | teamName (team nm : String)
  deriving DecidableEq, Repr

/-- The `matched` attribute of the produced `Line` instance. -/
def LEvent.matched : LEvent → Bool
  | base b => b
  | _ => true

/-- `LogEndLine(world, line)`: on a matcher hit, `TimeLine.parse` runs
`parse_timestamp`, which builds the datetime (possibly raising) and assigns
`world.timestamp`. -/
def tryLogEnd (w : PWorld) (line : String) :
    Except PyError (Option (LEvent × PWorld)) :=
  match matchLogEnd line with
  | none => .ok none
  | some g =>
    match mkDatetime g.year g.month g.day g.hour g.minute g.second with
    | .error e => .error e
    | .ok ts => .ok (some (.logEnd ts, { w with timestamp := ts }))

/-- `TeamNameLine(world, line)`: no timestamp; `update_world` stores the
team name. -/
def tryTeamName (w : PWorld) (line : String) :
    Except PyError (Option (LEvent × PWorld)) :=
  match matchTeamName line with
  | none => .ok none
  | some (team, nm) =>
      .ok (some (.teamName team nm,
        { w with team_names := fun t =>
            if t = team then some nm else w.team_names t }))

/-- The base `Line` matcher `re.compile("$")`: matches only `""` or `"\n"`. -/
def baseMatch (line : String) : Bool :=
  match line.toList with
  | [] => true
  | [c] => c = '\n'
  | _ => false

/-- `Line.identify` over the embedded catalog: construct each subclass until
one matches (its decode may raise), else return the base `Line`. -/
def identify (w : PWorld) (line : String) :
    Except PyError (LEvent × PWorld) :=
  match tryLogEnd w line with
  | .error e => .error e
  | .ok (some r) => .ok r
  | .ok none =>
    match tryTeamName w line with
    | .error e => .error e
    | .ok (some r) => .ok r
    | .ok none => .ok (.base (baseMatch line), w)

/-- Counterexample for C8 as stated: the line
`L 13/01/2016 - 17:03:44: Log file closed.` matches `LogEndLine`'s pattern
(`\d\d` accepts month 13) and `datetime(2016, 13, 1, ...)` raises
`ValueError` out of `identify` — no event is returned.  Also, on the blank
line `"\n"` no shape matches yet the fallback base `Line`'s `matched` flag
is `true` (its `"$"` matcher matches a blank line), not the `false` the
claim asserts. -/
theorem C8_counterexample :
    identify emptyWorld "L 13/01/2016 - 17:03:44: Log file closed." =
      .error .valueError ∧
    (∀ r, identify emptyWorld "L 13/01/2016 - 17:03:44: Log file closed." ≠
      .ok r) ∧
    identify emptyWorld "\n" = .ok (.base true, emptyWorld) ∧
    (LEvent.base true).matched = true := by
  refine ⟨rfl, ?_, rfl, rfl⟩
  intro r h
  have h' : (Except.error PyError.valueError :
      Except PyError (LEvent × PWorld)) = .ok r := h
  exact Except.noConfusion h'

/-- **C8** (amended): `identify` tries the catalog and returns the first
matching shape's event — but when the matched shape's decode raises (an
out-of-range timestamp), the error propagates instead of an event being
returned; when no shape matches, the base fallback is returned without
error, its `matched` flag true exactly on empty/blank lines. -/
theorem C8_identify_first_match (w : PWorld) (line : String) :
    (matchLogEnd line = none → matchTeamName line = none →
      identify w line = .ok (.base (baseMatch line), w)) ∧
    (∀ g ts, matchLogEnd line = some g →
      mkDatetime g.year g.month g.day g.hour g.minute g.second = .ok ts →
      identify w line = .ok (.logEnd ts, { w with timestamp := ts })) ∧
    (∀ g e, matchLogEnd line = some g →
      mkDatetime g.year g.month g.day g.hour g.minute g.second = .error e →
      identify w line = .error e) ∧
    (∀ team nm, matchLogEnd line = none →
      matchTeamName line = some (team, nm) →
      identify w line = .ok (.teamName team nm,
        { w with team_names := fun t =>
            if t = team then some nm else w.team_names t })) := by
  refine ⟨?_, ?_, ?_, ?_⟩
  · intro h1 h2
    simp only [identify, tryLogEnd, tryTeamName, h1, h2]
  · intro g ts h1 h2
    simp only [identify, tryLogEnd, h1, h2]
  · intro g e h1 h2
    simp only [identify, tryLogEnd, h1, h2]
  · intro team nm h1 h2
    simp only [identify, tryLogEnd, tryTeamName, h1, h2]

theorem C8_witness :
    identify emptyWorld "hello" = .ok (.base false, emptyWorld) ∧
    identify emptyWorld "L 04/01/2016 - 17:03:44: Log file closed." =
      .ok (.logEnd (((((2016 * 12 + 4) * 31 + 1) * 24 + 17) * 60 + 3) * 60
          + 44),
        { emptyWorld with
          timestamp := ((((2016 * 12 + 4) * 31 + 1) * 24 + 17) * 60 + 3) * 60
            + 44 }) :=
  ⟨(C8_identify_first_match emptyWorld "hello").1 rfl rfl,
   (C8_identify_first_match emptyWorld
      "L 04/01/2016 - 17:03:44: Log file closed.").2.1
     ⟨4, 1, 2016, 17, 3, 44⟩ _ rfl rfl⟩

end TF2Logs
